import Mathlib

/-!
Verification of the SmartPDFReader retrieval pipeline.

This file gives a shallow embedding of the core retrieval-pipeline code
(`textChunker.ts`, `embeddingService.ts`, `vectorStore.ts`, `ragService.ts`)
and proves/refutes the frozen specification claims about it.

Modelling conventions:
* A JavaScript string is modelled as `List Char` (`JSString`); JS string
  operations (`trim`, `slice`, `split`, concatenation) are modelled as the
  corresponding list operations.
* A JavaScript `Map` is modelled as an insertion-ordered association list
  (`JSMap`): `set` of an existing key updates the value in place (keeping the
  key's position, as JS `Map.set` does), `set` of a new key appends.
* JS numbers used as vector components are modelled as real numbers `ℝ`
  (the code's `Math.sqrt`/division arithmetic is exact-real in the model);
  counters and lengths are `Nat`.
* Remote calls (embedding service, completion service, PDF.js extraction) are
  modelled as oracle parameters returning `Except` values; `Date`/timestamp
  fields are elided (real time is not statable).
-/

abbrev JSString := List Char

/-- Coerce a Lean string literal to the `List Char` model of JS strings. -/
def str (s : String) : JSString := s.data

/-- The JS whitespace class (ASCII part), as used by `String.trim` and the
regex class `\s`. -/
def jsWs (c : Char) : Bool :=
  c = ' ' || c = '\t' || c = '\n' || c = '\r' || c = '\x0b' || c = '\x0c'

/-- Model of JS `String.trimStart`. -/
def jsTrimLeft (s : JSString) : JSString := s.dropWhile jsWs

/-- Model of JS `String.trimEnd`. -/
def jsTrimRight (s : JSString) : JSString := (s.reverse.dropWhile jsWs).reverse

/-- Model of JS `String.trim`. -/
def jsTrim (s : JSString) : JSString := jsTrimRight (jsTrimLeft s)

/-- Model of JS `String.lastIndexOf(c)`: index of the last occurrence of `c`,
or `-1` when there is none. -/
def lastIndexOf (c : Char) (s : JSString) : Int :=
  match s.reverse.findIdx? (fun x => decide (x = c)) with
  | some j => (s.length : Int) - 1 - (j : Int)
  | none => -1

/-- The decimal rendering of a `Nat`, as a JS string (for template literals). -/
def natToJS (n : Nat) : JSString := (Nat.repr n).data

/-- A JavaScript `Map` with `JSString` keys: an insertion-ordered association
list with unique keys (unique by construction from `mapSet`). -/
abbrev JSMap (β : Type) := List (JSString × β)

/-- Model of JS `Map.get`. -/
def mapGet {β : Type} : JSMap β → JSString → Option β
  | [], _ => none
  | (k', v) :: m, k => if k' = k then some v else mapGet m k

/-- Model of JS `Map.has`. -/
def mapHas {β : Type} (m : JSMap β) (k : JSString) : Bool := (mapGet m k).isSome

/-- Model of JS `Map.set`: update in place if the key is present (the key keeps
its position), append otherwise. -/
def mapSet {β : Type} : JSMap β → JSString → β → JSMap β
  | [], k, v => [(k, v)]
  | (k', v') :: m, k, v =>
    if k' = k then (k', v) :: m else (k', v') :: mapSet m k v

/-- Model of JS `Map.delete`: removes the entry for the key (keys are unique,
so removing the first occurrence is removing the entry). -/
def mapDelete {β : Type} : JSMap β → JSString → JSMap β
  | [], _ => []
  | (k', v') :: m, k => if k' = k then m else (k', v') :: mapDelete m k

/-- Model of JS `Map.size`. -/
def mapSize {β : Type} (m : JSMap β) : Nat := m.length

/-- Split a char list at every char satisfying `p`; fragments may be empty.
This models JS `String.split` with a single-character-class regex.  (Splitting
on the run-regex `/[.!?]+/` differs from splitting at each terminator only by
extra empty fragments, which the chunker filters out immediately after.) -/
def splitOnPredAux (p : Char → Bool) : JSString → JSString → List JSString
  | [], acc => [acc.reverse]
  | c :: rest, acc =>
    if p c then acc.reverse :: splitOnPredAux p rest []
    else splitOnPredAux p rest (c :: acc)

/-- Split at maximal whitespace runs, modelling JS `text.split(/\s+/)`
(boundary runs contribute empty fragments, as in JS).  The `inRun` flag marks
that the previous character belonged to the current separator run. -/
def splitWsRuns : JSString → JSString → Bool → List JSString
  | [], acc, _ => [acc.reverse]
  | c :: rest, acc, inRun =>
    if jsWs c then
      if inRun then splitWsRuns rest [] true
      else acc.reverse :: splitWsRuns rest [] true
    else splitWsRuns rest (c :: acc) false

namespace TextChunker

def MAX_CHUNK_SIZE : Nat := 1000
def OVERLAP_SIZE : Nat := 200
def MIN_CHUNK_SIZE : Nat := 100

/-- A sentence terminator, the class `[.!?]` of `splitIntoSentences`. -/
def isTerminal (c : Char) : Bool := c = '.' || c = '!' || c = '?'

/-- `TextChunker.splitIntoSentences`: split on terminal punctuation, trim each
fragment, drop empty fragments. -/
def splitIntoSentences (text : JSString) : List JSString :=
  ((splitOnPredAux isTerminal text []).map jsTrim).filter (fun s => 0 < s.length)

/-- `TextChunker.getOverlapText`: the trailing slice of a sealed buffer, up to
`OVERLAP_SIZE`, cut after the last `'.'` inside the slice when there is one at
a positive index. -/
def getOverlapText (chunk : JSString) : JSString :=
  if chunk.length ≤ OVERLAP_SIZE then chunk
  else
    let overlapText := chunk.drop (chunk.length - OVERLAP_SIZE)
    let lastSentenceEnd := lastIndexOf '.' overlapText
    if 0 < lastSentenceEnd then jsTrim (overlapText.drop (lastSentenceEnd.toNat + 1))
    else overlapText

/-- The `TextChunk` record produced by the chunker (the `embeddedAt`-style
timestamp fields live on the embedded record, not here). -/
structure TextChunk where
  id : JSString
  text : JSString
  pageNumber : Nat
  chunkIndex : Nat
  pdfId : JSString
  pdfName : JSString
  startChar : Nat
  endChar : Nat
  wordCount : Nat
  sectionLabel : Option JSString
deriving DecidableEq, Repr, Inhabited

/-- Is `c` an ASCII capital letter (regex class `[A-Z]`)? -/
def isUpperAZ (c : Char) : Bool := 'A' ≤ c && c ≤ 'Z'

/-- Regex class `\d`. -/
def isDigit09 (c : Char) : Bool := '0' ≤ c && c ≤ '9'

/-- Regex class `[IVX]`. -/
def isRomanChar (c : Char) : Bool := c = 'I' || c = 'V' || c = 'X'

/-- Regex `^[A-Z][A-Z\s]+$`. -/
def matchAllCaps : JSString → Bool
  | [] => false
  | c :: rest =>
    isUpperAZ c && decide (1 ≤ rest.length) && rest.all (fun x => isUpperAZ x || jsWs x)

/-- Regex `^\d+\.\s` (as a test, i.e. a match anywhere at the start). -/
def matchNumbered (l : JSString) : Bool :=
  let ds := l.takeWhile isDigit09
  decide (0 < ds.length) &&
    (match l.drop ds.length with
     | '.' :: c :: _ => jsWs c
     | _ => false)

/-- Regex `^[IVX]+\.\s`. -/
def matchRoman (l : JSString) : Bool :=
  let ds := l.takeWhile isRomanChar
  decide (0 < ds.length) &&
    (match l.drop ds.length with
     | '.' :: c :: _ => jsWs c
     | _ => false)

/-- `TextChunker.detectSection`: tag the first line as a section header when it
is all-caps, numbered, roman-numbered, or short and ending in a colon. -/
def detectSection (text : JSString) : Option JSString :=
  let lines := splitOnPredAux (fun c => c = '\n') text []
  let firstLine := jsTrim (lines.headD [])
  if firstLine ≠ [] ∧
      (matchAllCaps firstLine || matchNumbered firstLine || matchRoman firstLine ||
        (decide (firstLine.length < 50) && decide (firstLine.getLast? = some ':'))) = true
  then some firstLine else none

/-- `TextChunker.createChunk`. -/
def createChunk (text : JSString) (pageNumber chunkIndex : Nat)
    (pdfId pdfName : JSString) (startChar endChar : Nat) : TextChunk :=
  { id := pdfId ++ str "-page" ++ natToJS pageNumber ++ str "-chunk" ++ natToJS chunkIndex
    text := jsTrim text
    pageNumber := pageNumber
    chunkIndex := chunkIndex
    pdfId := pdfId
    pdfName := pdfName
    startChar := startChar
    endChar := endChar
    wordCount := (splitWsRuns text [] false).length
    sectionLabel := detectSection text }

/-- The loop of `TextChunker.chunkText`, processing the sentence list with the
running buffer `currentChunk`.  Each produced chunk is paired with its *core*:
the part of the buffer after the overlap seed, i.e. the sentences accumulated
into this buffer (space-joined).  The `core` accumulator is inert
instrumentation — it influences nothing the source computes — and exists so
the chunk-coverage claim can speak about non-overlap text. -/
def chunkTextAux (pageNumber : Nat) (pdfId pdfName : JSString) :
    List JSString → JSString → JSString → Nat → Nat → List (TextChunk × JSString)
  | [], currentChunk, core, chunkIndex, startChar =>
    if 0 < (jsTrim currentChunk).length then
      [(createChunk currentChunk pageNumber chunkIndex pdfId pdfName startChar
          (startChar + currentChunk.length), core)]
    else []
  | sentence :: rest, currentChunk, core, chunkIndex, startChar =>
    let potentialChunk := currentChunk ++ (if currentChunk ≠ [] then str " " else []) ++ sentence
    if MAX_CHUNK_SIZE < potentialChunk.length ∧ MIN_CHUNK_SIZE < currentChunk.length then
      let overlapText := getOverlapText currentChunk
      let newChunk := overlapText ++ (if overlapText ≠ [] then str " " else []) ++ sentence
      (createChunk currentChunk pageNumber chunkIndex pdfId pdfName startChar
          (startChar + currentChunk.length), core)
        :: chunkTextAux pageNumber pdfId pdfName rest newChunk sentence (chunkIndex + 1)
            (startChar + (newChunk.length - overlapText.length - sentence.length))
    else
      chunkTextAux pageNumber pdfId pdfName rest potentialChunk
        (core ++ (if core ≠ [] then str " " else []) ++ sentence) chunkIndex startChar

/-- `TextChunker.chunkText`. -/
def chunkText (text : JSString) (pageNumber : Nat) (pdfId pdfName : JSString) :
    List TextChunk :=
  (chunkTextAux pageNumber pdfId pdfName (splitIntoSentences text) [] [] 0 0).map Prod.fst

/-- The core (non-overlap) texts of the chunks of a page, in order. -/
def chunkCores (text : JSString) (pageNumber : Nat) (pdfId pdfName : JSString) :
    List JSString :=
  (chunkTextAux pageNumber pdfId pdfName (splitIntoSentences text) [] [] 0 0).map Prod.snd

end TextChunker

/-- A page of extracted text (`ExtractedText`; the pixel-geometry metadata and
timestamps are elided — they feed no claim and are floating-point layout
data). -/
structure ExtractedText where
  text : JSString
  pageNumber : Nat
deriving DecidableEq, Repr

/-- `ExtractedPDF` (without the `extractedAt` wall-clock timestamp). -/
structure ExtractedPDF where
  id : JSString
  name : JSString
  totalPages : Nat
  extractedText : List ExtractedText
deriving DecidableEq, Repr

namespace TextChunker

/-- `TextChunker.chunkPDF`: chunk each page and concatenate. -/
def chunkPDF (pdf : ExtractedPDF) : List TextChunk :=
  (pdf.extractedText.map (fun pageText =>
    chunkText pageText.text pageText.pageNumber pdf.id pdf.name)).flatten

end TextChunker

namespace EmbeddingService

/-- `EmbeddedChunk`: a text chunk plus its embedding vector and model id
(the `embeddedAt` wall-clock timestamp is elided). -/
structure EmbeddedChunk extends TextChunker.TextChunk where
  embedding : List ℝ
  embeddingModel : JSString

/-- The loop `dotProduct += embedding1[i] * embedding2[i]` over
`i < embedding1.length`; it is only reached when the two lengths are equal,
where it equals the zip-wise product sum. -/
def dotProduct (a b : List ℝ) : ℝ := (List.zipWith (fun x y => x * y) a b).sum

/-- The loop `norm1 += embedding1[i] * embedding1[i]`: the sum of squares. -/
def sumSq (a : List ℝ) : ℝ := dotProduct a a

/-- `EmbeddingService.calculateSimilarity`: cosine similarity, failing on a
dimension mismatch, returning 0 when `sqrt(norm1) * sqrt(norm2)` is zero. -/
noncomputable def calculateSimilarity (a b : List ℝ) : Except JSString ℝ :=
  if a.length ≠ b.length then .error (str "Embeddings must have the same dimension")
  else
    let magnitude := Real.sqrt (sumSq a) * Real.sqrt (sumSq b)
    if magnitude = 0 then .ok 0 else .ok (dotProduct a b / magnitude)

/-- A chunk paired with its similarity to the query, the element type of the
`similarities` array in `findSimilarChunks`. -/
structure Scored where
  chunk : EmbeddedChunk
  similarity : ℝ

/-- The array `chunks.map(chunk => ({chunk, similarity: ...}))`: the first
dimension-mismatch throw aborts the whole map. -/
noncomputable def mapSimilarities (queryEmbedding : List ℝ) :
    List EmbeddedChunk → Except JSString (List Scored)
  | [] => .ok []
  | c :: cs =>
    match calculateSimilarity queryEmbedding c.embedding with
    | .error e => .error e
    | .ok s =>
      match mapSimilarities queryEmbedding cs with
      | .error e => .error e
      | .ok rest => .ok (⟨c, s⟩ :: rest)

/-- Stable insertion into a list sorted by descending similarity: the new
element goes after every earlier element whose similarity is `≥` its own. -/
noncomputable def insertDesc (x : Scored) : List Scored → List Scored
  | [] => [x]
  | y :: ys => if x.similarity < y.similarity then y :: insertDesc x ys else x :: y :: ys

/-- The sort `similarities.sort((a, b) => b.similarity - a.similarity)`.
JS `Array.prototype.sort` is specified stable; with this consistent comparator
its output is exactly the descending stable reordering, which stable insertion
sort reproduces. -/
noncomputable def sortDesc : List Scored → List Scored
  | [] => []
  | x :: xs => insertDesc x (sortDesc xs)

/-- `EmbeddingService.findSimilarChunks` (the TS `topK` parameter defaults
to 5 at the call grammar level; the model passes it explicitly). -/
noncomputable def findSimilarChunks (queryEmbedding : List ℝ)
    (embeddedChunks : List EmbeddedChunk) (topK : Nat) :
    Except JSString (List Scored) :=
  (mapSimilarities queryEmbedding embeddedChunks).map (fun sims => (sortDesc sims).take topK)

end EmbeddingService

open EmbeddingService (EmbeddedChunk)

/-- `VectorStore`: the chunk map keyed by chunk id, and the secondary index
from pdf id to its chunk-id list. -/
structure VectorStore where
  embeddedChunks : JSMap EmbeddedChunk
  pdfChunks : JSMap (List JSString)

namespace VectorStore

def empty : VectorStore := ⟨[], []⟩

/-- One iteration of the `addChunks` forEach: set the chunk by id, create the
document's id list if absent, and push the chunk id onto it. -/
def addChunk (s : VectorStore) (c : EmbeddedChunk) : VectorStore :=
  let m := mapSet s.embeddedChunks c.id c
  let pdfMap := if mapHas s.pdfChunks c.pdfId then s.pdfChunks
                else mapSet s.pdfChunks c.pdfId []
  let lst := (mapGet pdfMap c.pdfId).getD []
  ⟨m, mapSet pdfMap c.pdfId (lst ++ [c.id])⟩

/-- `VectorStore.addChunks`. -/
def addChunks (s : VectorStore) (cs : List EmbeddedChunk) : VectorStore :=
  cs.foldl addChunk s

/-- `VectorStore.removePDF`: delete every chunk id recorded for the pdf, then
the pdf's own entry. -/
def removePDF (s : VectorStore) (pdfId : JSString) : VectorStore :=
  let chunkIds := (mapGet s.pdfChunks pdfId).getD []
  ⟨chunkIds.foldl (fun m cid => mapDelete m cid) s.embeddedChunks,
    mapDelete s.pdfChunks pdfId⟩

/-- `VectorStore.getChunksForPDFs`: for each requested pdf id in request
order, resolve its recorded chunk ids (skipping dangling ids). -/
def getChunksForPDFs (s : VectorStore) (pdfIds : List JSString) : List EmbeddedChunk :=
  (pdfIds.map (fun pdfId =>
    ((mapGet s.pdfChunks pdfId).getD []).filterMap
      (fun cid => mapGet s.embeddedChunks cid))).flatten

/-- The record returned by `VectorStore.getStats`. -/
structure Stats where
  totalChunks : Nat
  totalPDFs : Nat
  chunksPerPDF : JSMap Nat
deriving DecidableEq, Repr

/-- `VectorStore.getStats`. -/
def getStats (s : VectorStore) : Stats :=
  ⟨mapSize s.embeddedChunks, mapSize s.pdfChunks,
    s.pdfChunks.map (fun p => (p.1, p.2.length))⟩

/-- A search result as returned by `VectorStore.search`. -/
structure SearchResult where
  chunk : EmbeddedChunk
  similarity : ℝ
  score : ℝ

/-- `VectorStore.search`.  The source first awaits one
`EmbeddingService.generateEmbedding` remote call for the query text and only
then gathers the candidate chunks and checks for emptiness; the model takes
that single call's outcome as `queryEmbedding` and consumes it
unconditionally, so a failed embedding call is propagated for every
`pdfIds` — including the empty set — before any empty-result shortcut. -/
noncomputable def search (queryEmbedding : Except JSString (List ℝ))
    (s : VectorStore) (pdfIds : List JSString) (topK : Nat) :
    Except JSString (List SearchResult) :=
  match queryEmbedding with
  | .error e => .error e
  | .ok qe =>
    let relevantChunks := getChunksForPDFs s pdfIds
    if relevantChunks.length = 0 then .ok []
    else
      (EmbeddingService.findSimilarChunks qe relevantChunks topK).map
        (fun sims => sims.map (fun r => ⟨r.chunk, r.similarity, r.similarity⟩))

/-- `search` at the TS default `topK = 5`. -/
noncomputable def searchDefault (queryEmbedding : Except JSString (List ℝ))
    (s : VectorStore) (pdfIds : List JSString) : Except JSString (List SearchResult) :=
  search queryEmbedding s pdfIds 5

end VectorStore

/-- `RAGConfig` (the API credential and `temperature` feed only the remote
calls, which are modelled as oracles; `maxChunks` is the retrieval knob). -/
structure RAGConfig where
  maxChunks : Nat

/-- The `{id, name}` part of a `PDFDocument` (the `file` bytes feed only the
extraction call, which is an oracle). -/
structure PDFDocument where
  id : JSString
  name : JSString

/-- One source entry of a `RAGResponse`. -/
structure RAGSource where
  pdfName : JSString
  pageNumber : Nat
  text : JSString
  similarity : ℝ

/-- `RAGResponse` (the `processingTime` wall-clock metadatum is elided). -/
structure RAGResponse where
  answer : JSString
  sources : List RAGSource
  chunksUsed : Nat
  pdfsQueried : List JSString

/-- The mutable state of a `RAGService` instance: the `extractedPDFs` cache
and the vector store. -/
structure RAGState where
  extractedPDFs : JSMap ExtractedPDF
  vectorStore : VectorStore

/-- The initial state after the constructor. -/
def RAGState.initial : RAGState := ⟨[], VectorStore.empty⟩

namespace RAGService

/-- `RAGService.isPDFProcessed`: membership in the `extractedPDFs` cache. -/
def isPDFProcessed (s : RAGState) (pdfId : JSString) : Bool :=
  mapHas s.extractedPDFs pdfId

/-- The observable side effects of one `processPDF` run, in order:
the extraction remote call, the embedding stage (one or more batched remote
calls, all state-free), and the vector-store insertion. -/
inductive IngestEffect where
  | extractionCall
  | embeddingCall
  | indexAdd
deriving DecidableEq, Repr

/-- The remote outcomes a single `processPDF(document)` run can observe:
the `TextExtractor.extractTextFromPDF` result for this document, and the
`generateEmbeddingsInBatches` result for its chunks.  The embedding stage
issues batched remote calls sequentially with delays, but a batch failure
aborts the stage with all partial results still local, so the stage is one
oracle outcome with no state effect of its own. -/
structure IngestEnv where
  extract : Except JSString ExtractedPDF
  embedChunks : List TextChunker.TextChunk → Except JSString (List EmbeddedChunk)

/-- `RAGService.processPDF`: cache-hit check, then extract (caching the
extraction result *immediately*), then chunk, embed and index.  Returns the
new state, the promise outcome (the catch block rethrows a wrapped error),
and the effect trace. -/
def processPDF (env : IngestEnv) (s : RAGState) (doc : PDFDocument) :
    RAGState × Except JSString Unit × List IngestEffect :=
  if isPDFProcessed s doc.id then (s, .ok (), [])
  else
    match env.extract with
    | .error e => (s, .error (str "Failed to process PDF: " ++ e), [.extractionCall])
    | .ok extractedPDF =>
      let s1 : RAGState := { s with extractedPDFs := mapSet s.extractedPDFs doc.id extractedPDF }
      let chunks := TextChunker.chunkPDF extractedPDF
      match env.embedChunks chunks with
      | .error e =>
        (s1, .error (str "Failed to process PDF: " ++ e), [.extractionCall, .embeddingCall])
      | .ok embeddedChunks =>
        ({ s1 with vectorStore := VectorStore.addChunks s1.vectorStore embeddedChunks },
          .ok (), [.extractionCall, .embeddingCall, .indexAdd])

/-- Last index of `c` in `l`, as `Option Nat` (helper for the regex models). -/
def lastIdxOfChar (c : Char) (l : JSString) : Option Nat :=
  match l.reverse.findIdx? (fun x => decide (x = c)) with
  | some j => some (l.length - 1 - j)
  | none => none

/-- Does the list start with an ASCII capital (the lookahead `(?=[A-Z])`)? -/
def headIsUpper : JSString → Bool
  | c :: _ => TextChunker.isUpperAZ c
  | [] => false

/-- Matcher encoding: `some k` means a separator match of length `k + 1`
begins at the head of the list (every separator regex here matches at least
one character, which the encoding makes structural for termination). -/
abbrev Matcher := JSString → Option Nat

/-- Regex `/\n\s*\n/` at the head: a newline, then the greedy whitespace run
up to and including its last newline. -/
def matchDoubleNewline : Matcher
  | '\n' :: rest =>
    let run := rest.takeWhile jsWs
    (lastIdxOfChar '\n' run).map (fun j => j + 1)
  | _ => none

/-- Regex `/\.\s+(?=[A-Z])/` at the head: a period, a nonempty whitespace run,
with a capital letter following (only the maximal run can be followed by a
non-whitespace capital, so greediness needs no backtracking). -/
def matchPeriodCapital : Matcher
  | '.' :: rest =>
    let run := rest.takeWhile jsWs
    if 0 < run.length ∧ headIsUpper (rest.drop run.length) = true then some run.length
    else none
  | _ => none

/-- Regex `/\?\s+(?=[A-Z])/` at the head. -/
def matchQuestionCapital : Matcher
  | '?' :: rest =>
    let run := rest.takeWhile jsWs
    if 0 < run.length ∧ headIsUpper (rest.drop run.length) = true then some run.length
    else none
  | _ => none

/-- Regex `/\?\s*\n/` at the head: a question mark, then the greedy whitespace
run up to and including its last newline. -/
def matchQuestionNewline : Matcher
  | '?' :: rest =>
    let run := rest.takeWhile jsWs
    (lastIdxOfChar '\n' run).map (fun j => j + 1)
  | _ => none

/-- JS `String.split(regex)`: scan left to right, cutting at each leftmost
match and resuming after it; fragments may be empty.  The scan consumes at
least one character per step, so `fuel` initialized to the input length never
runs out (the fuel-exhaustion branch is unreachable for the initial call). -/
def splitAtMatchesGo (m : Matcher) : Nat → JSString → JSString → List JSString
  | _, [], acc => [acc.reverse]
  | 0, l, acc => [acc.reverse ++ l]
  | fuel + 1, c :: rest, acc =>
    match m (c :: rest) with
    | some k => acc.reverse :: splitAtMatchesGo m fuel ((c :: rest).drop (k + 1)) []
    | none => splitAtMatchesGo m fuel rest (c :: acc)

/-- JS `String.split(regex)` for one of the separator regexes. -/
def splitAtMatches (m : Matcher) (l : JSString) : List JSString :=
  splitAtMatchesGo m l.length l []

/-- The separator list of `detectMultipleQuestions`, in source order. -/
def questionSeparators : List Matcher :=
  [matchDoubleNewline, matchPeriodCapital, matchQuestionCapital, matchQuestionNewline]

/-- The separator loop: try each separator; on the first one that increases
the fragment count, trim the fragments, drop empties, and stop. -/
def trySeparators : List Matcher → List JSString → List JSString
  | [], questions => questions
  | m :: ms, questions =>
    let split := (questions.map (fun q => splitAtMatches m q)).flatten
    if questions.length < split.length then
      (split.map jsTrim).filter (fun q => 0 < q.length)
    else trySeparators ms questions

/-- Count occurrences of `c` (the `(text.match(/\?/g) || []).length` count). -/
def countChar (c : Char) (l : JSString) : Nat := (l.filter (fun x => decide (x = c))).length

/-- JS `String.split(c)` on a plain character. -/
def splitOnChar (c : Char) (l : JSString) : List JSString :=
  splitOnPredAux (fun x => decide (x = c)) l []

/-- `RAGService.detectMultipleQuestions`. -/
def detectMultipleQuestions (text : JSString) : List JSString :=
  let questions := trySeparators questionSeparators [jsTrim text]
  let questions :=
    if questions.length = 1 ∧ 1 < countChar '?' text then
      let parts := splitOnChar '?' text
      (parts.dropLast.map (fun p => jsTrim (p ++ str "?"))).filter (fun q => 10 < q.length)
    else questions
  questions.filter (fun q => 5 < q.length)

/-- The remote outcomes a `query` run can observe: one
`EmbeddingService.generateEmbedding` outcome per (sub-)question text, and one
completion-call outcome (`generateResponse`) per answered (sub-)question,
given the question and the retrieved results the prompt is built from. -/
structure QueryEnv where
  embed : JSString → Except JSString (List ℝ)
  complete : JSString → List VectorStore.SearchResult → Except JSString JSString

/-- The source mapping from a search result to a `RAGResponse` source. -/
def toSource (r : VectorStore.SearchResult) : RAGSource :=
  ⟨r.chunk.pdfName, r.chunk.pageNumber, r.chunk.text, r.similarity⟩

/-- The answer template of the no-results branch of `query`, with its
diagnostic counts (requested pdf ids, processed pdf ids, total chunk count). -/
def noInfoAnswer (requestedPDFs processedPDFs : List JSString) (totalChunks : Nat) : JSString :=
  str "I couldn't find relevant information in the selected PDFs to answer your question. \n\nDebug info:\n- Requested PDFs: " ++
    List.intercalate (str ", ") requestedPDFs ++
    str "\n- Processed PDFs: " ++ List.intercalate (str ", ") processedPDFs ++
    str "\n- Total chunks available: " ++ natToJS totalChunks ++
    str "\n\nPlease make sure the PDFs are uploaded and processed first."

/-- One iteration of the `processMultipleQuestions` loop, for question number
`idx` (1-based in the labels) at the per-question `topK`: the per-question
try/catch turns any search or completion error into an apology section. -/
noncomputable def answerOneQuestion (env : QueryEnv) (s : RAGState)
    (pdfIds : List JSString) (topK : Nat) (question : JSString) (idx : Nat) :
    JSString × List RAGSource × Nat :=
  let label := str "**Question " ++ natToJS idx ++ str ":** " ++ question ++
    str "\n\n**Answer:** "
  match VectorStore.search (env.embed question) s.vectorStore pdfIds topK with
  | .error _ =>
    (label ++ str "Sorry, I encountered an error while processing this question.", [], 0)
  | .ok searchResults =>
    if 0 < searchResults.length then
      match env.complete question searchResults with
      | .error _ =>
        (label ++ str "Sorry, I encountered an error while processing this question.", [], 0)
      | .ok answer => (label ++ answer, searchResults.map toSource, searchResults.length)
    else
      (label ++ str "I couldn't find relevant information in the selected PDFs to answer this question.",
        [], 0)

/-- The `processMultipleQuestions` loop over the question list, numbering
questions from `idx`, concatenating sources and summing chunk counts. -/
noncomputable def multiLoop (env : QueryEnv) (s : RAGState) (pdfIds : List JSString)
    (topK : Nat) (idx : Nat) : List JSString → List JSString × List RAGSource × Nat
  | [] => ([], [], 0)
  | q :: qs =>
    let first := answerOneQuestion env s pdfIds topK q idx
    let rest := multiLoop env s pdfIds topK (idx + 1) qs
    (first.1 :: rest.1, first.2.1 ++ rest.2.1, first.2.2 + rest.2.2)

/-- `Math.ceil(a / b)` on natural numbers. -/
def jsCeilDiv (a b : Nat) : Nat := (a + b - 1) / b

/-- `RAGService.processMultipleQuestions`: every error is caught per question,
so this always resolves with a response; answers are joined with the visible
separator. -/
noncomputable def processMultipleQuestions (env : QueryEnv) (cfg : RAGConfig)
    (s : RAGState) (questions : List JSString) (pdfIds : List JSString) : RAGResponse :=
  let topK := jsCeilDiv cfg.maxChunks questions.length
  let results := multiLoop env s pdfIds topK 1 questions
  { answer := List.intercalate (str "\n\n---\n\n") results.1
    sources := results.2.1
    chunksUsed := results.2.2
    pdfsQueried := pdfIds }

/-- `RAGService.query`: detect sub-questions; fan out if more than one,
otherwise search once at `maxChunks`, with the deterministic no-results
response when the search comes back empty; the outer catch wraps any error
thrown by the single-question path. -/
noncomputable def query (env : QueryEnv) (cfg : RAGConfig) (s : RAGState)
    (question : JSString) (pdfIds : List JSString) : Except JSString RAGResponse :=
  let questions := detectMultipleQuestions question
  if 1 < questions.length then
    .ok (processMultipleQuestions env cfg s questions pdfIds)
  else
    match VectorStore.search (env.embed question) s.vectorStore pdfIds cfg.maxChunks with
    | .error e => .error (str "Failed to query RAG system: " ++ e)
    | .ok searchResults =>
      if searchResults.length = 0 then
        let stats := VectorStore.getStats s.vectorStore
        .ok { answer := noInfoAnswer pdfIds (stats.chunksPerPDF.map Prod.fst) stats.totalChunks
              sources := []
              chunksUsed := 0
              pdfsQueried := pdfIds }
      else
        match env.complete question searchResults with
        | .error e => .error (str "Failed to query RAG system: " ++ e)
        | .ok answer =>
          .ok { answer := answer
                sources := searchResults.map toSource
                chunksUsed := searchResults.length
                pdfsQueried := pdfIds }

end RAGService


/-! ### Derived definitions and fixtures used by the verification -/

/-- Join a list of strings with single spaces (the separator the chunker
inserts between sentences and between an overlap seed and new content). -/
def spJoin (l : List JSString) : JSString := List.intercalate (str " ") l

namespace TextChunker

/-- The length of the longest sentence of a page (0 when there is none). -/
def maxSentenceLength (text : JSString) : Nat :=
  ((splitIntoSentences text).map List.length).foldr max 0

end TextChunker

namespace EmbeddingService

/-- The cosine value the code computes for two vectors (division by a zero
magnitude yields 0 in the real model, matching the code's explicit guard). -/
noncomputable def cosineValue (a b : List ℝ) : ℝ :=
  dotProduct a b / (Real.sqrt (sumSq a) * Real.sqrt (sumSq b))

end EmbeddingService

namespace VectorStore

/-- The embedded-chunk map alone, after an `addChunks` fold. -/
def addEmb (m : JSMap EmbeddedChunk) (cs : List EmbeddedChunk) : JSMap EmbeddedChunk :=
  cs.foldl (fun m c => mapSet m c.id c) m

/-- The per-chunk update of the pdf-to-chunk-ids map inside `addChunk`. -/
def stepPdf (m : JSMap (List JSString)) (c : EmbeddedChunk) : JSMap (List JSString) :=
  let m' := if mapHas m c.pdfId then m else mapSet m c.pdfId []
  mapSet m' c.pdfId ((mapGet m' c.pdfId).getD [] ++ [c.id])

/-- The pdf-to-chunk-ids map alone, after an `addChunks` fold. -/
def addPdf (m : JSMap (List JSString)) (cs : List EmbeddedChunk) : JSMap (List JSString) :=
  cs.foldl stepPdf m

/-- The ids of the chunks of `cs` that belong to document `p`, in order. -/
def idsFor (p : JSString) (cs : List EmbeddedChunk) : List JSString :=
  (cs.filter (fun c => decide (c.pdfId = p))).map (fun c => c.id)

end VectorStore

/-- Fixture: a chunk of document "B" with a one-dimensional unit embedding,
inserted into the fixture store first. -/
def chunkB : EmbeddedChunk :=
  { id := str "b1", text := str "tb", pageNumber := 1, chunkIndex := 0,
    pdfId := str "B", pdfName := str "DocB", startChar := 0, endChar := 2,
    wordCount := 1, sectionLabel := none,
    embedding := [(1 : ℝ)], embeddingModel := str "m" }

/-- Fixture: a chunk of document "A" with the same embedding as `chunkB`,
inserted second. -/
def chunkA : EmbeddedChunk :=
  { id := str "a1", text := str "ta", pageNumber := 1, chunkIndex := 0,
    pdfId := str "A", pdfName := str "DocA", startChar := 0, endChar := 2,
    wordCount := 1, sectionLabel := none,
    embedding := [(1 : ℝ)], embeddingModel := str "m" }

/-- Fixture store: `chunkB` ingested before `chunkA`. -/
def storeBA : VectorStore :=
  VectorStore.addChunks (VectorStore.addChunks VectorStore.empty [chunkB]) [chunkA]

/-- Fixture environment for the query counterexamples/witnesses: the embedding
call always succeeds with a unit vector; the completion call always succeeds
with a fixed string (never reached on the empty-store paths). -/
noncomputable def envOk : RAGService.QueryEnv :=
  { embed := fun _ => .ok [(1 : ℝ)], complete := fun _ _ => .ok (str "IGNORED") }

/-- Fixture configuration with the default `maxChunks = 5`. -/
def cfg5 : RAGConfig := { maxChunks := 5 }

/-- Fixture: an extraction result with one page of text. -/
def pdfHello : ExtractedPDF :=
  { id := str "a", name := str "A", totalPages := 1,
    extractedText := [{ text := str "Hello world", pageNumber := 1 }] }

/-- Fixture: the document record handed to `processPDF`. -/
def docA : PDFDocument := { id := str "a", name := str "A" }

/-- Fixture: extraction succeeds, the embedding remote call fails. -/
def envEmbedFail : RAGService.IngestEnv :=
  { extract := .ok pdfHello, embedChunks := fun _ => .error (str "boom") }

/-- Fixture: extraction and embedding both succeed (with an empty embedding
result, which exercises the success path without index content). -/
def envIngestOk : RAGService.IngestEnv :=
  { extract := .ok pdfHello, embedChunks := fun _ => .ok [] }

/-- A predicate packaging what a successful scoped search returns: the result
is the topK-prefix of the unique stable descending reordering of the scored
candidate chunks — at most topK results, drawn from the requested documents'
chunks, sorted by descending similarity, with equal-similarity ties kept in
candidate order (the filter equations). -/
noncomputable def SearchRankedSpec (qe : List ℝ) (s : VectorStore)
    (pdfIds : List JSString) (topK : Nat) : Prop :=
  ∃ (res : List VectorStore.SearchResult) (sorted : List EmbeddingService.Scored),
    VectorStore.search (.ok qe) s pdfIds topK = .ok res ∧
    res = (sorted.take topK).map (fun r => ⟨r.chunk, r.similarity, r.similarity⟩) ∧
    res.length ≤ topK ∧
    (∀ r ∈ res, r.chunk ∈ VectorStore.getChunksForPDFs s pdfIds) ∧
    List.Pairwise (fun a b => b.similarity ≤ a.similarity) res ∧
    sorted.Perm ((VectorStore.getChunksForPDFs s pdfIds).map
      (fun c => ⟨c, EmbeddingService.cosineValue qe c.embedding⟩)) ∧
    List.Pairwise (fun (a b : EmbeddingService.Scored) => b.similarity ≤ a.similarity) sorted ∧
    (∀ v : ℝ, sorted.filter (fun a => decide (a.similarity = v)) =
      ((VectorStore.getChunksForPDFs s pdfIds).map
        (fun c => ⟨c, EmbeddingService.cosineValue qe c.embedding⟩)).filter
        (fun a => decide (a.similarity = v)))

/-! ### Basic facts about the JS string model -/

theorem head_dropWhile_false {p : Char → Bool} :
    ∀ {l c t}, List.dropWhile p l = c :: t → p c = false := by
  intro l
  induction l with
  | nil => intro c t h; simp [List.dropWhile] at h
  | cons a l ih =>
    intro c t h
    by_cases ha : p a
    · rw [List.dropWhile_cons_of_pos ha] at h; exact ih h
    · rw [List.dropWhile_cons_of_neg ha] at h
      cases h; simpa using ha

theorem trimRight_exists_nonws {y : JSString} (h : jsTrimRight y ≠ []) :
    ∃ c ∈ jsTrimRight y, jsWs c = false := by
  unfold jsTrimRight at *
  rcases hd : List.dropWhile jsWs y.reverse with _ | ⟨c, t⟩
  · rw [hd] at h; simp at h
  · refine ⟨c, ?_, head_dropWhile_false hd⟩
    simp

theorem trim_ne_nil_of_nonws {l : JSString} (h : ∃ c ∈ l, jsWs c = false) :
    jsTrim l ≠ [] := by
  rcases h with ⟨c, hc, hws⟩
  unfold jsTrim jsTrimRight jsTrimLeft
  intro hnil
  rw [List.reverse_eq_nil_iff, List.dropWhile_eq_nil_iff] at hnil
  have hall : ∀ x ∈ List.dropWhile jsWs l, jsWs x = true := fun x hx =>
    hnil x (by simpa using hx)
  have hcl : c ∈ List.takeWhile jsWs l ∨ c ∈ List.dropWhile jsWs l := by
    rw [← List.mem_append, List.takeWhile_append_dropWhile]; exact hc
  rcases hcl with hcl | hcl
  · rw [List.mem_takeWhile_imp hcl] at hws; cases hws
  · rw [hall c hcl] at hws; cases hws

theorem trim_exists_nonws {l : JSString} (h : jsTrim l ≠ []) :
    ∃ c ∈ jsTrim l, jsWs c = false :=
  trimRight_exists_nonws h

theorem intercalate_cons₂ (sep : JSString) (a b : JSString) (l : List JSString) :
    List.intercalate sep (a :: b :: l) = a ++ sep ++ List.intercalate sep (b :: l) := by
  simp [List.intercalate, List.intersperse]

theorem intercalate_single (sep a : JSString) : List.intercalate sep [a] = a := by
  simp [List.intercalate, List.intersperse]

theorem intercalate_append_head (sep a b : JSString) (l : List JSString) :
    List.intercalate sep ((a ++ sep ++ b) :: l) = List.intercalate sep (a :: b :: l) := by
  cases l with
  | nil => rw [intercalate_single, intercalate_cons₂, intercalate_single]
  | cons x l' => rw [intercalate_cons₂, intercalate_cons₂, intercalate_cons₂]; simp

namespace TextChunker

theorem chunkTextAux_ne_nil (pn : Nat) (pid pname : JSString) :
    ∀ (ss : List JSString) (cur core : JSString) (idx sc : Nat),
      (∃ c ∈ cur, jsWs c = false) →
      chunkTextAux pn pid pname ss cur core idx sc ≠ [] := by
  intro ss
  induction ss with
  | nil =>
    intro cur core idx sc hcur
    have h := trim_ne_nil_of_nonws hcur
    simp only [chunkTextAux]
    rw [if_pos (List.length_pos.mpr h)]
    simp
  | cons s ss ih =>
    intro cur core idx sc hcur
    rcases hcur with ⟨c, hc, hw⟩
    simp only [chunkTextAux]
    split <;> split
    · simp
    · exact ih _ _ _ _ ⟨c, by simp [hc], hw⟩
    · simp
    · exact ih _ _ _ _ ⟨c, by simp [hc], hw⟩

end TextChunker

theorem spJoin_single (a : JSString) : spJoin [a] = a := intercalate_single _ _

theorem spJoin_cons₂ (a b : JSString) (l : List JSString) :
    spJoin (a :: b :: l) = a ++ str " " ++ spJoin (b :: l) := intercalate_cons₂ _ _ _ _

theorem spJoin_cons_of_ne_nil (a : JSString) {L : List JSString} (h : L ≠ []) :
    spJoin (a :: L) = a ++ str " " ++ spJoin L := by
  rcases List.exists_cons_of_ne_nil h with ⟨x, L', rfl⟩
  exact spJoin_cons₂ a x L'

theorem spJoin_append_head (a b : JSString) (l : List JSString) :
    spJoin ((a ++ str " " ++ b) :: l) = spJoin (a :: b :: l) :=
  intercalate_append_head _ _ _ _

namespace TextChunker

theorem chunkTextAux_cores (pn : Nat) (pid pname : JSString) :
    ∀ (ss : List JSString) (cur core : JSString) (idx sc : Nat),
      (∀ s ∈ ss, ∃ c ∈ s, jsWs c = false) →
      (∃ c ∈ cur, jsWs c = false) → core ≠ [] →
      spJoin ((chunkTextAux pn pid pname ss cur core idx sc).map Prod.snd) =
        spJoin (core :: ss) := by
  intro ss
  induction ss with
  | nil =>
    intro cur core idx sc _ hcur _
    have h := trim_ne_nil_of_nonws hcur
    simp only [chunkTextAux]
    rw [if_pos (List.length_pos.mpr h)]
    simp [spJoin_single]
  | cons s ss ih =>
    intro cur core idx sc hss hcur hcore
    have hs := hss s (by simp)
    have hs' : s ≠ [] := by
      rcases hs with ⟨c, hc, _⟩; exact List.ne_nil_of_mem hc
    have hsstail : ∀ t ∈ ss, ∃ c ∈ t, jsWs c = false := fun t ht => hss t (by simp [ht])
    have hcurne : cur ≠ [] := by
      rcases hcur with ⟨c, hc, _⟩; exact List.ne_nil_of_mem hc
    simp only [chunkTextAux, if_pos hcurne, if_pos hcore]
    split
    · -- seal branch
      have hnew : ∃ c ∈ (getOverlapText cur ++ if getOverlapText cur ≠ [] then str " " else []) ++ s,
          jsWs c = false := by
        rcases hs with ⟨c, hc, hw⟩; exact ⟨c, by simp [hc], hw⟩
      rw [List.map_cons]
      rw [spJoin_cons_of_ne_nil core (by
        simp only [ne_eq, List.map_eq_nil_iff]
        exact chunkTextAux_ne_nil pn pid pname ss _ s _ _ hnew)]
      rw [ih _ s _ _ hsstail hnew hs']
      rw [spJoin_cons₂]
    · -- extend branch
      have hnewcur : ∃ c ∈ cur ++ str " " ++ s, jsWs c = false := by
        rcases hcur with ⟨c, hc, hw⟩; exact ⟨c, by simp [hc], hw⟩
      have hnewcore : (core ++ str " " ++ s) ≠ [] := by simp [hs']
      rw [ih _ _ _ _ hsstail hnewcur hnewcore]
      rw [spJoin_append_head]

end TextChunker

theorem splitIntoSentences_nonws (text : JSString) :
    ∀ s ∈ TextChunker.splitIntoSentences text, ∃ c ∈ s, jsWs c = false := by
  intro s hs
  unfold TextChunker.splitIntoSentences at hs
  rw [List.mem_filter] at hs
  rcases hs with ⟨hmem, hlen⟩
  rcases List.mem_map.mp hmem with ⟨a, _, rfl⟩
  apply trim_exists_nonws
  intro hnil
  rw [hnil] at hlen
  simp at hlen

namespace TextChunker

theorem chunkTextAux_start (pn : Nat) (pid pname : JSString) (s : JSString)
    (ss : List JSString) (idx sc : Nat) :
    chunkTextAux pn pid pname (s :: ss) [] [] idx sc =
      chunkTextAux pn pid pname ss s s idx sc := by
  simp [chunkTextAux, MIN_CHUNK_SIZE]

theorem chunkCores_join (text : JSString) (pn : Nat) (pid pname : JSString) :
    spJoin (chunkCores text pn pid pname) = spJoin (splitIntoSentences text) := by
  have hss := splitIntoSentences_nonws text
  unfold chunkCores
  rcases h : splitIntoSentences text with _ | ⟨s, ss⟩
  · rfl
  · rw [h] at hss
    rw [chunkTextAux_start]
    have hs := hss s (by simp)
    have hs' : s ≠ [] := by
      rcases hs with ⟨c, hc, _⟩; exact List.ne_nil_of_mem hc
    exact chunkTextAux_cores pn pid pname ss s s 0 0
      (fun t ht => hss t (by simp [ht])) hs hs'

end TextChunker

theorem jsTrim_length_le (s : JSString) : (jsTrim s).length ≤ s.length := by
  unfold jsTrim jsTrimRight jsTrimLeft
  calc ((List.dropWhile jsWs (List.dropWhile jsWs s).reverse).reverse).length
      = (List.dropWhile jsWs (List.dropWhile jsWs s).reverse).length := List.length_reverse _
    _ ≤ (List.dropWhile jsWs s).reverse.length :=
        List.IsSuffix.length_le (List.dropWhile_suffix jsWs)
    _ = (List.dropWhile jsWs s).length := List.length_reverse _
    _ ≤ s.length := List.IsSuffix.length_le (List.dropWhile_suffix jsWs)

namespace TextChunker

theorem getOverlapText_length_le (c : JSString) :
    (getOverlapText c).length ≤ OVERLAP_SIZE := by
  unfold getOverlapText
  split
  · assumption
  · rename_i h
    push_neg at h
    have hslice : (c.drop (c.length - OVERLAP_SIZE)).length = OVERLAP_SIZE := by
      rw [List.length_drop]
      omega
    dsimp only
    split
    · calc (jsTrim ((c.drop (c.length - OVERLAP_SIZE)).drop
              ((lastIndexOf '.' (c.drop (c.length - OVERLAP_SIZE))).toNat + 1))).length
          ≤ ((c.drop (c.length - OVERLAP_SIZE)).drop
              ((lastIndexOf '.' (c.drop (c.length - OVERLAP_SIZE))).toNat + 1)).length :=
            jsTrim_length_le _
        _ ≤ (c.drop (c.length - OVERLAP_SIZE)).length := by
            rw [List.length_drop]; omega
        _ = OVERLAP_SIZE := hslice
    · rw [hslice]

end TextChunker

theorem str_space_length : (str " ").length = 1 := rfl

namespace TextChunker

theorem seal_new_bound {ov s : JSString} {L : Nat} (hov : ov.length ≤ OVERLAP_SIZE)
    (hs : s.length ≤ L) :
    ((ov ++ if ov ≠ [] then str " " else []) ++ s).length ≤ OVERLAP_SIZE + 1 + L := by
  split <;> simp only [List.length_append, str_space_length, List.length_nil] <;> omega

theorem extend_bound {curLen sepLen sLen L : Nat} (hsep : sepLen ≤ 1) (hs : sLen ≤ L)
    (_hcur : curLen ≤ max MAX_CHUNK_SIZE (OVERLAP_SIZE + 1 + L))
    (hguard : ¬(MAX_CHUNK_SIZE < curLen + sepLen + sLen ∧ MIN_CHUNK_SIZE < curLen)) :
    curLen + sepLen + sLen ≤ max MAX_CHUNK_SIZE (OVERLAP_SIZE + 1 + L) := by
  simp only [MAX_CHUNK_SIZE, OVERLAP_SIZE, MIN_CHUNK_SIZE] at *
  rcases Nat.le_total (curLen + sepLen + sLen) 1000 with h | h
  · omega
  · rcases not_and_or.mp hguard with h' | h' <;> omega

theorem chunkTextAux_text_length_le (pn : Nat) (pid pname : JSString) (L : Nat) :
    ∀ (ss : List JSString) (cur core : JSString) (idx sc : Nat),
      (∀ s ∈ ss, s.length ≤ L) →
      cur.length ≤ max MAX_CHUNK_SIZE (OVERLAP_SIZE + 1 + L) →
      ∀ p ∈ chunkTextAux pn pid pname ss cur core idx sc,
        p.1.text.length ≤ max MAX_CHUNK_SIZE (OVERLAP_SIZE + 1 + L) := by
  intro ss
  induction ss with
  | nil =>
    intro cur core idx sc _ hcur p hp
    simp only [chunkTextAux] at hp
    split at hp
    · simp only [List.mem_singleton] at hp
      subst hp
      simp only [createChunk]
      exact le_trans (jsTrim_length_le cur) hcur
    · simp at hp
  | cons s ss ih =>
    intro cur core idx sc hss hcur p hp
    have hsL := hss s (by simp)
    have hsstail : ∀ t ∈ ss, t.length ≤ L := fun t ht => hss t (by simp [ht])
    have hov := getOverlapText_length_le cur
    simp only [chunkTextAux] at hp
    split at hp <;> split at hp
    · rcases List.mem_cons.mp hp with rfl | hp'
      · simp only [createChunk]
        exact le_trans (jsTrim_length_le cur) hcur
      · refine ih _ _ _ _ hsstail ?_ p hp'
        exact le_trans (seal_new_bound hov hsL) (le_max_right _ _)
    · refine ih _ _ _ _ hsstail ?_ p hp
      rename_i hguard
      simp only [List.length_append, str_space_length] at hguard ⊢
      exact extend_bound (le_refl 1) hsL hcur hguard
    · rcases List.mem_cons.mp hp with rfl | hp'
      · simp only [createChunk]
        exact le_trans (jsTrim_length_le cur) hcur
      · refine ih _ _ _ _ hsstail ?_ p hp'
        exact le_trans (seal_new_bound hov hsL) (le_max_right _ _)
    · refine ih _ _ _ _ hsstail ?_ p hp
      rename_i hguard
      simp only [List.length_append, str_space_length, List.length_nil] at hguard ⊢
      exact extend_bound (Nat.zero_le 1) hsL hcur hguard

end TextChunker

namespace TextChunker

theorem chunkTextAux_dropLast_min (pn : Nat) (pid pname : JSString) :
    ∀ (ss : List JSString) (cur core : JSString) (idx sc : Nat),
      (∀ s ∈ ss, ∃ c ∈ s, jsWs c = false) →
      ∀ p ∈ (chunkTextAux pn pid pname ss cur core idx sc).dropLast,
        MIN_CHUNK_SIZE < p.1.endChar - p.1.startChar := by
  intro ss
  induction ss with
  | nil =>
    intro cur core idx sc _ p hp
    simp only [chunkTextAux] at hp
    split at hp <;> simp at hp
  | cons s ss ih =>
    intro cur core idx sc hss p hp
    have hs := hss s (by simp)
    have hsstail : ∀ t ∈ ss, ∃ c ∈ t, jsWs c = false := fun t ht => hss t (by simp [ht])
    simp only [chunkTextAux] at hp
    split at hp <;> split at hp
    · rename_i hguard
      have hnew : ∃ c ∈ (getOverlapText cur ++ if getOverlapText cur ≠ [] then str " " else []) ++ s,
          jsWs c = false := by
        rcases hs with ⟨c, hc, hw⟩; exact ⟨c, by simp [hc], hw⟩
      have hne := chunkTextAux_ne_nil pn pid pname ss _ s (idx + 1)
        (sc + (((getOverlapText cur ++ if getOverlapText cur ≠ [] then str " " else []) ++ s).length -
          (getOverlapText cur).length - s.length)) hnew
      rcases List.exists_cons_of_ne_nil hne with ⟨x, r', hr⟩
      rw [hr] at hp
      rcases List.mem_cons.mp hp with rfl | hp'
      · simp only [createChunk]
        have h2 := hguard.2
        omega
      · rw [← hr] at hp'
        exact ih _ _ _ _ hsstail p hp'
    · exact ih _ _ _ _ hsstail p hp
    · rename_i hguard
      have hnew : ∃ c ∈ (getOverlapText cur ++ if getOverlapText cur ≠ [] then str " " else []) ++ s,
          jsWs c = false := by
        rcases hs with ⟨c, hc, hw⟩; exact ⟨c, by simp [hc], hw⟩
      have hne := chunkTextAux_ne_nil pn pid pname ss _ s (idx + 1)
        (sc + (((getOverlapText cur ++ if getOverlapText cur ≠ [] then str " " else []) ++ s).length -
          (getOverlapText cur).length - s.length)) hnew
      rcases List.exists_cons_of_ne_nil hne with ⟨x, r', hr⟩
      rw [hr] at hp
      rcases List.mem_cons.mp hp with rfl | hp'
      · simp only [createChunk]
        have h2 := hguard.2
        omega
      · rw [← hr] at hp'
        exact ih _ _ _ _ hsstail p hp'
    · exact ih _ _ _ _ hsstail p hp

end TextChunker

/-! ### JSMap lemmas -/

theorem mapGet_mapSet {β : Type} (m : JSMap β) (k : JSString) (v : β) (k' : JSString) :
    mapGet (mapSet m k v) k' = if k = k' then some v else mapGet m k' := by
  induction m with
  | nil =>
    by_cases h : k = k' <;> simp [mapSet, mapGet, h]
  | cons e m ih =>
    obtain ⟨ek, ev⟩ := e
    by_cases hek : ek = k
    · subst hek
      rw [mapSet, if_pos rfl]
      by_cases h : ek = k' <;> simp [mapGet, h]
    · rw [mapSet, if_neg hek]
      by_cases h : ek = k'
      · subst h
        have : ¬ k = ek := fun hh => hek hh.symm
        simp [mapGet, this, ih]
      · simp [mapGet, h, ih]

theorem mapSet_same {β : Type} (m : JSMap β) (k : JSString) (v : β)
    (h : mapGet m k = some v) : mapSet m k v = m := by
  induction m with
  | nil => simp [mapGet] at h
  | cons e m ih =>
    obtain ⟨ek, ev⟩ := e
    by_cases hek : ek = k
    · subst hek
      rw [mapGet, if_pos rfl] at h
      cases h
      rw [mapSet, if_pos rfl]
    · rw [mapGet, if_neg hek] at h
      rw [mapSet, if_neg hek, ih h]

theorem mapSize_mapSet_of_has {β : Type} (m : JSMap β) (k : JSString) (v : β)
    (h : mapHas m k = true) : mapSize (mapSet m k v) = mapSize m := by
  induction m with
  | nil => simp [mapHas, mapGet] at h
  | cons e m ih =>
    obtain ⟨ek, ev⟩ := e
    by_cases hek : ek = k
    · rw [mapSet, if_pos hek]; rfl
    · rw [mapHas, mapGet, if_neg hek] at h
      rw [mapSet, if_neg hek]
      simp only [mapSize, List.length_cons]
      exact congrArg Nat.succ (ih h)

theorem mapHas_mapSet {β : Type} (m : JSMap β) (k : JSString) (v : β) (k' : JSString) :
    mapHas (mapSet m k v) k' = (decide (k = k') || mapHas m k') := by
  by_cases h : k = k' <;> simp [mapHas, mapGet_mapSet, h]

theorem mapGet_map_entry {β γ : Type} (f : JSString → β → γ) (m : JSMap β) (k : JSString) :
    mapGet (m.map (fun e => (e.1, f e.1 e.2))) k = (mapGet m k).map (f k) := by
  induction m with
  | nil => simp [mapGet]
  | cons e m ih =>
    obtain ⟨ek, ev⟩ := e
    by_cases h : ek = k
    · subst h; simp [mapGet, ih]
    · simp [mapGet, h, ih]

namespace VectorStore

theorem addChunks_decompose (cs : List EmbeddedChunk) : ∀ (s : VectorStore),
    addChunks s cs = ⟨addEmb s.embeddedChunks cs, addPdf s.pdfChunks cs⟩ := by
  induction cs with
  | nil => intro s; rfl
  | cons c cs ih =>
    intro s
    show addChunks (addChunk s c) cs = _
    rw [ih (addChunk s c)]
    rfl

theorem addEmb_get_of_not_mem (cs : List EmbeddedChunk) :
    ∀ (m : JSMap EmbeddedChunk) (k : JSString), k ∉ cs.map (fun c => c.id) →
      mapGet (addEmb m cs) k = mapGet m k := by
  induction cs with
  | nil => intro m k _; rfl
  | cons c cs ih =>
    intro m k hk
    simp only [List.map_cons, List.mem_cons] at hk
    push_neg at hk
    show mapGet (addEmb (mapSet m c.id c) cs) k = _
    rw [ih _ k hk.2, mapGet_mapSet, if_neg (fun h => hk.1 h.symm)]

theorem addEmb_get_mem (cs : List EmbeddedChunk) :
    ∀ (m : JSMap EmbeddedChunk), (cs.map (fun c => c.id)).Nodup →
      ∀ c ∈ cs, mapGet (addEmb m cs) c.id = some c := by
  induction cs with
  | nil => intro m _ c hc; simp at hc
  | cons c0 cs ih =>
    intro m hnd c hc
    simp only [List.map_cons, List.nodup_cons] at hnd
    rcases List.mem_cons.mp hc with rfl | hc'
    · show mapGet (addEmb (mapSet m c.id c) cs) c.id = some c
      rw [addEmb_get_of_not_mem cs _ c.id hnd.1, mapGet_mapSet, if_pos rfl]
    · exact ih _ hnd.2 c hc'

theorem addEmb_id (cs : List EmbeddedChunk) :
    ∀ (m : JSMap EmbeddedChunk), (∀ c ∈ cs, mapGet m c.id = some c) →
      addEmb m cs = m := by
  induction cs with
  | nil => intro m _; rfl
  | cons c cs ih =>
    intro m h
    show addEmb (mapSet m c.id c) cs = m
    rw [mapSet_same m c.id c (h c (by simp))]
    exact ih m (fun c' hc' => h c' (by simp [hc']))

theorem stepPdf_get (m : JSMap (List JSString)) (c : EmbeddedChunk) (k : JSString) :
    mapGet (stepPdf m c) k =
      if c.pdfId = k then some ((mapGet m c.pdfId).getD [] ++ [c.id]) else mapGet m k := by
  unfold stepPdf
  rw [mapGet_mapSet]
  by_cases hk : c.pdfId = k
  · rw [if_pos hk, if_pos hk]
    by_cases hhas : mapHas m c.pdfId = true
    · rw [if_pos hhas]
    · rw [if_neg hhas, mapGet_mapSet, if_pos rfl]
      unfold mapHas at hhas
      rcases hmg : mapGet m c.pdfId with _ | v
      · rfl
      · rw [hmg] at hhas; simp at hhas
  · rw [if_neg hk, if_neg hk]
    by_cases hhas : mapHas m c.pdfId = true
    · rw [if_pos hhas]
    · rw [if_neg hhas, mapGet_mapSet, if_neg hk]

theorem addPdf_get (cs : List EmbeddedChunk) :
    ∀ (m : JSMap (List JSString)) (k : JSString), (∀ c ∈ cs, mapHas m c.pdfId = true) →
      mapGet (addPdf m cs) k = (mapGet m k).map (fun l => l ++ idsFor k cs) := by
  induction cs with
  | nil =>
    intro m k _
    cases hmg : mapGet m k <;> simp [addPdf, idsFor, hmg]
  | cons c cs ih =>
    intro m k hhas
    have hc := hhas c (by simp)
    have hstep : ∀ c' ∈ cs, mapHas (stepPdf m c) c'.pdfId = true := by
      intro c' hc'
      unfold mapHas
      rw [stepPdf_get]
      split
      · rfl
      · exact hhas c' (by simp [hc'])
    show mapGet (addPdf (stepPdf m c) cs) k = _
    rw [ih _ k hstep, stepPdf_get]
    rcases hmg : mapGet m c.pdfId with _ | l
    · unfold mapHas at hc; rw [hmg] at hc; simp at hc
    · by_cases hk : c.pdfId = k
      · subst hk
        rw [if_pos rfl, hmg]
        simp only [Option.getD_some, Option.map_some]
        have : idsFor c.pdfId (c :: cs) = c.id :: idsFor c.pdfId cs := by
          simp [idsFor]
        rw [this]
        simp
      · rw [if_neg hk]
        have : idsFor k (c :: cs) = idsFor k cs := by
          simp only [idsFor, List.filter_cons]
          rw [if_neg (by simpa using hk)]
        rw [this]

theorem addPdf_has (cs : List EmbeddedChunk) :
    ∀ (m : JSMap (List JSString)) (k : JSString),
      (mapHas m k = true ∨ k ∈ cs.map (fun c => c.pdfId)) →
      mapHas (addPdf m cs) k = true := by
  induction cs with
  | nil =>
    intro m k h
    rcases h with h | h
    · exact h
    · simp at h
  | cons c cs ih =>
    intro m k h
    show mapHas (addPdf (stepPdf m c) cs) k = true
    apply ih
    by_cases hk : c.pdfId = k
    · left
      unfold mapHas
      rw [stepPdf_get, if_pos hk]
      rfl
    · rcases h with h | h
      · left
        unfold mapHas
        rw [stepPdf_get, if_neg hk]
        exact h
      · right
        have h2 : k = c.pdfId ∨ ∃ a ∈ cs, a.pdfId = k := by simpa using h
        rcases h2 with h' | ⟨a, ha, ha'⟩
        · exact absurd h'.symm hk
        · simp only [List.mem_map]
          exact ⟨a, ha, ha'⟩

theorem addPdf_size (cs : List EmbeddedChunk) :
    ∀ (m : JSMap (List JSString)), (∀ c ∈ cs, mapHas m c.pdfId = true) →
      mapSize (addPdf m cs) = mapSize m := by
  induction cs with
  | nil => intro m _; rfl
  | cons c cs ih =>
    intro m hhas
    have hc := hhas c (by simp)
    have hstep : ∀ c' ∈ cs, mapHas (stepPdf m c) c'.pdfId = true := by
      intro c' hc'
      unfold mapHas
      rw [stepPdf_get]
      split
      · rfl
      · exact hhas c' (by simp [hc'])
    show mapSize (addPdf (stepPdf m c) cs) = mapSize m
    rw [ih _ hstep]
    unfold stepPdf
    rw [if_pos hc]
    exact mapSize_mapSet_of_has m c.pdfId _ hc

end VectorStore

theorem mapGet_length_map (m : JSMap (List JSString)) (k : JSString) :
    mapGet (m.map (fun p => (p.1, p.2.length))) k = (mapGet m k).map List.length := by
  induction m with
  | nil => simp [mapGet]
  | cons e m ih =>
    obtain ⟨ek, ev⟩ := e
    by_cases h : ek = k
    · subst h; simp [mapGet]
    · simp [mapGet, h, ih]

namespace VectorStore

theorem addChunks_twice (s : VectorStore) (cs : List EmbeddedChunk)
    (hids : (cs.map (fun c => c.id)).Nodup) :
    (addChunks (addChunks s cs) cs).embeddedChunks = (addChunks s cs).embeddedChunks ∧
    (getStats (addChunks (addChunks s cs) cs)).totalChunks =
      (getStats (addChunks s cs)).totalChunks ∧
    (getStats (addChunks (addChunks s cs) cs)).totalPDFs =
      (getStats (addChunks s cs)).totalPDFs ∧
    ∀ p, mapGet (getStats (addChunks (addChunks s cs) cs)).chunksPerPDF p =
      (mapGet (getStats (addChunks s cs)).chunksPerPDF p).map
        (fun n => n + (idsFor p cs).length) := by
  have hd1 := addChunks_decompose cs s
  have hd2 := addChunks_decompose cs (addChunks s cs)
  have hemb : (addChunks (addChunks s cs) cs).embeddedChunks = (addChunks s cs).embeddedChunks := by
    rw [hd2, hd1]
    exact addEmb_id cs _ (fun c hc => by
      rw [hd1] at *
      exact addEmb_get_mem cs s.embeddedChunks hids c hc)
  have hhas1 : ∀ c ∈ cs, mapHas (addChunks s cs).pdfChunks c.pdfId = true := by
    intro c hc
    rw [hd1]
    exact addPdf_has cs s.pdfChunks c.pdfId (Or.inr (List.mem_map.mpr ⟨c, hc, rfl⟩))
  refine ⟨hemb, ?_, ?_, ?_⟩
  · simp only [getStats, mapSize]
    rw [hemb]
  · simp only [getStats]
    rw [hd2]
    exact addPdf_size cs _ hhas1
  · intro p
    simp only [getStats]
    rw [mapGet_length_map, mapGet_length_map, hd2]
    dsimp only
    rw [addPdf_get cs _ p hhas1]
    cases mapGet (addChunks s cs).pdfChunks p <;> simp

end VectorStore

namespace RAGService

theorem processPDF_cache_hit (env : IngestEnv) (s : RAGState) (doc : PDFDocument)
    (h : isPDFProcessed s doc.id = true) :
    processPDF env s doc = (s, .ok (), []) := by
  unfold processPDF
  rw [if_pos h]

theorem processPDF_ok_processed (env : IngestEnv) (s : RAGState) (doc : PDFDocument)
    (s' : RAGState) (eff : List IngestEffect)
    (h : processPDF env s doc = (s', .ok (), eff)) :
    isPDFProcessed s' doc.id = true := by
  unfold processPDF at h
  split at h
  · rename_i hp
    cases h
    exact hp
  · rename_i hp
    rcases hext : env.extract with e | pdf
    · rw [hext] at h
      dsimp only at h
      simp at h
    · rw [hext] at h
      dsimp only at h
      rcases hemb : env.embedChunks (TextChunker.chunkPDF pdf) with e | ecs
      · rw [hemb] at h
        simp at h
      · rw [hemb] at h
        dsimp only at h
        cases h
        unfold isPDFProcessed mapHas
        rw [mapGet_mapSet, if_pos rfl]
        rfl

/-- After any `processPDF` call that resolves successfully, a second call for
the same document is a complete no-op: same state, success, no remote calls,
no index mutation. -/
theorem processPDF_second_noop (env env' : IngestEnv) (s : RAGState) (doc : PDFDocument)
    (s' : RAGState) (eff : List IngestEffect)
    (h : processPDF env s doc = (s', .ok (), eff)) :
    processPDF env' s' doc = (s', .ok (), []) :=
  processPDF_cache_hit env' s' doc (processPDF_ok_processed env s doc s' eff h)

end RAGService

namespace EmbeddingService

theorem dotProduct_comm (a b : List ℝ) : dotProduct a b = dotProduct b a := by
  unfold dotProduct
  rw [List.zipWith_comm_of_comm (fun x y => x * y) mul_comm]

theorem calculateSimilarity_of_eq_length (a b : List ℝ) (h : a.length = b.length) :
    calculateSimilarity a b =
      .ok (dotProduct a b / (Real.sqrt (sumSq a) * Real.sqrt (sumSq b))) := by
  unfold calculateSimilarity
  rw [if_neg (by simp [h])]
  by_cases hm : Real.sqrt (sumSq a) * Real.sqrt (sumSq b) = 0
  · rw [if_pos hm, hm, div_zero]
  · rw [if_neg hm]

theorem calculateSimilarity_comm (a b : List ℝ) :
    calculateSimilarity a b = calculateSimilarity b a := by
  by_cases h : a.length = b.length
  · rw [calculateSimilarity_of_eq_length a b h, calculateSimilarity_of_eq_length b a h.symm]
    rw [dotProduct_comm, mul_comm]
  · unfold calculateSimilarity
    rw [if_pos (by simpa using h), if_pos (by simp; exact fun hh => h hh.symm)]

theorem calculateSimilarity_zero (a b : List ℝ) (h : a.length = b.length)
    (hz : Real.sqrt (sumSq a) = 0 ∨ Real.sqrt (sumSq b) = 0) :
    calculateSimilarity a b = .ok 0 := by
  unfold calculateSimilarity
  rw [if_neg (by simp [h])]
  rcases hz with hz | hz <;> rw [if_pos (by rw [hz]; ring)]

theorem calculateSimilarity_error_iff (a b : List ℝ) :
    (∃ e, calculateSimilarity a b = .error e) ↔ a.length ≠ b.length := by
  constructor
  · rintro ⟨e, he⟩
    intro h
    rw [calculateSimilarity_of_eq_length a b h] at he
    cases he
  · intro h
    refine ⟨str "Embeddings must have the same dimension", ?_⟩
    unfold calculateSimilarity
    rw [if_pos (by simpa using h)]

end EmbeddingService

namespace EmbeddingService

theorem insertDesc_perm (x : Scored) (l : List Scored) : (insertDesc x l).Perm (x :: l) := by
  induction l with
  | nil => exact List.Perm.refl _
  | cons y ys ih =>
    unfold insertDesc
    split
    · exact ((ih.cons y).trans (List.Perm.swap x y ys))
    · exact List.Perm.refl _

theorem sortDesc_perm (l : List Scored) : (sortDesc l).Perm l := by
  induction l with
  | nil => exact List.Perm.refl _
  | cons x xs ih =>
    exact (insertDesc_perm x (sortDesc xs)).trans (ih.cons x)

theorem insertDesc_sorted (x : Scored) (l : List Scored)
    (hl : List.Pairwise (fun a b => b.similarity ≤ a.similarity) l) :
    List.Pairwise (fun a b => b.similarity ≤ a.similarity) (insertDesc x l) := by
  induction l with
  | nil => simp [insertDesc]
  | cons y ys ih =>
    rw [List.pairwise_cons] at hl
    unfold insertDesc
    split
    · rename_i hlt
      rw [List.pairwise_cons]
      constructor
      · intro z hz
        have hz' : z = x ∨ z ∈ ys := by
          have := (insertDesc_perm x ys).mem_iff.mp hz
          simpa using this
        rcases hz' with rfl | hz'
        · exact le_of_lt hlt
        · exact hl.1 z hz'
      · exact ih hl.2
    · rename_i hge
      push_neg at hge
      rw [List.pairwise_cons]
      constructor
      · intro z hz
        rcases List.mem_cons.mp hz with rfl | hz'
        · exact hge
        · exact le_trans (hl.1 z hz') hge
      · rw [List.pairwise_cons]
        exact hl

theorem sortDesc_sorted (l : List Scored) :
    List.Pairwise (fun a b => b.similarity ≤ a.similarity) (sortDesc l) := by
  induction l with
  | nil => simp [sortDesc]
  | cons x xs ih => exact insertDesc_sorted x (sortDesc xs) ih

theorem insertDesc_filter_eq (x : Scored) (l : List Scored) (v : ℝ) :
    (insertDesc x l).filter (fun a => decide (a.similarity = v)) =
      if x.similarity = v then x :: l.filter (fun a => decide (a.similarity = v))
      else l.filter (fun a => decide (a.similarity = v)) := by
  induction l with
  | nil =>
    by_cases hx : x.similarity = v <;> simp [insertDesc, List.filter, hx]
  | cons y ys ih =>
    unfold insertDesc
    split
    · rename_i hlt
      by_cases hx : x.similarity = v
      · have hy : ¬ y.similarity = v := by
          intro hy
          rw [hx] at hlt
          rw [hy] at hlt
          exact lt_irrefl v hlt
        simp [List.filter_cons, hx, hy, ih]
      · by_cases hy : y.similarity = v <;> simp [List.filter_cons, hx, hy, ih]
    · by_cases hx : x.similarity = v <;> simp [List.filter_cons, hx]

theorem sortDesc_filter_eq (l : List Scored) (v : ℝ) :
    (sortDesc l).filter (fun a => decide (a.similarity = v)) =
      l.filter (fun a => decide (a.similarity = v)) := by
  induction l with
  | nil => rfl
  | cons x xs ih =>
    show (insertDesc x (sortDesc xs)).filter _ = _
    rw [insertDesc_filter_eq]
    by_cases hx : x.similarity = v <;> simp [List.filter_cons, hx, ih]

end EmbeddingService

namespace EmbeddingService

theorem mapSimilarities_ok (qe : List ℝ) (cs : List EmbeddedChunk)
    (hdim : ∀ c ∈ cs, c.embedding.length = qe.length) :
    mapSimilarities qe cs = .ok (cs.map (fun c => ⟨c, cosineValue qe c.embedding⟩)) := by
  induction cs with
  | nil => rfl
  | cons c cs ih =>
    have hc : qe.length = c.embedding.length := (hdim c (by simp)).symm
    unfold mapSimilarities
    rw [calculateSimilarity_of_eq_length qe c.embedding hc]
    rw [ih (fun c' hc' => hdim c' (by simp [hc']))]
    rfl

theorem findSimilarChunks_ok (qe : List ℝ) (cs : List EmbeddedChunk) (topK : Nat)
    (hdim : ∀ c ∈ cs, c.embedding.length = qe.length) :
    findSimilarChunks qe cs topK =
      .ok ((sortDesc (cs.map (fun c => ⟨c, cosineValue qe c.embedding⟩))).take topK) := by
  unfold findSimilarChunks
  rw [mapSimilarities_ok qe cs hdim]
  rfl

end EmbeddingService

namespace VectorStore

theorem search_empty_ids (qe : List ℝ) (s : VectorStore) (topK : Nat) :
    search (.ok qe) s [] topK = .ok [] := rfl

theorem search_error (e : JSString) (s : VectorStore) (pdfIds : List JSString) (topK : Nat) :
    search (.error e) s pdfIds topK = .error e := rfl

theorem search_ok_spec (qe : List ℝ) (s : VectorStore) (pdfIds : List JSString) (topK : Nat)
    (hdim : ∀ c ∈ getChunksForPDFs s pdfIds, c.embedding.length = qe.length) :
    ∃ sorted : List EmbeddingService.Scored,
      search (.ok qe) s pdfIds topK =
        .ok ((sorted.take topK).map (fun r => ⟨r.chunk, r.similarity, r.similarity⟩)) ∧
      sorted.Perm ((getChunksForPDFs s pdfIds).map
        (fun c => ⟨c, EmbeddingService.cosineValue qe c.embedding⟩)) ∧
      List.Pairwise (fun a b => b.similarity ≤ a.similarity) sorted ∧
      ∀ v : ℝ, sorted.filter (fun a => decide (a.similarity = v)) =
        ((getChunksForPDFs s pdfIds).map
          (fun c => ⟨c, EmbeddingService.cosineValue qe c.embedding⟩)).filter
          (fun a => decide (a.similarity = v)) := by
  by_cases hnil : getChunksForPDFs s pdfIds = []
  · refine ⟨[], ?_, ?_, ?_, ?_⟩
    · unfold search
      rw [hnil]
      simp
    · rw [hnil]; rfl
    · simp
    · intro v; rw [hnil]; rfl
  · refine ⟨EmbeddingService.sortDesc ((getChunksForPDFs s pdfIds).map
      (fun c => ⟨c, EmbeddingService.cosineValue qe c.embedding⟩)), ?_, ?_, ?_, ?_⟩
    · unfold search
      dsimp only
      rw [if_neg (fun h => hnil (List.length_eq_zero.mp h))]
      rw [EmbeddingService.findSimilarChunks_ok qe _ topK hdim]
      rfl
    · exact EmbeddingService.sortDesc_perm _
    · exact EmbeddingService.sortDesc_sorted _
    · intro v; exact EmbeddingService.sortDesc_filter_eq _ v

end VectorStore

theorem simOne : EmbeddingService.calculateSimilarity [(1 : ℝ)] [(1 : ℝ)] = .ok 1 := by
  rw [EmbeddingService.calculateSimilarity_of_eq_length _ _ rfl]
  norm_num [EmbeddingService.dotProduct, EmbeddingService.sumSq]

theorem searchBA :
    VectorStore.search (.ok [(1 : ℝ)]) storeBA [str "A", str "B"] 2 =
      .ok [⟨chunkA, 1, 1⟩, ⟨chunkB, 1, 1⟩] := by
  have hmapB : EmbeddingService.mapSimilarities [(1 : ℝ)] [chunkB] = .ok [⟨chunkB, 1⟩] := by
    unfold EmbeddingService.mapSimilarities
    rw [show chunkB.embedding = [(1 : ℝ)] from rfl, simOne]
    rfl
  have hmap : EmbeddingService.mapSimilarities [(1 : ℝ)] [chunkA, chunkB] =
      .ok [⟨chunkA, 1⟩, ⟨chunkB, 1⟩] := by
    unfold EmbeddingService.mapSimilarities
    rw [show chunkA.embedding = [(1 : ℝ)] from rfl, simOne, hmapB]
  unfold VectorStore.search
  dsimp only
  rw [show VectorStore.getChunksForPDFs storeBA [str "A", str "B"] = [chunkA, chunkB] from rfl]
  rw [if_neg (by decide)]
  unfold EmbeddingService.findSimilarChunks
  rw [hmap]
  show Except.ok _ = _
  have hsort : EmbeddingService.sortDesc [⟨chunkA, 1⟩, ⟨chunkB, 1⟩] =
      [(⟨chunkA, 1⟩ : EmbeddingService.Scored), ⟨chunkB, 1⟩] := by
    show EmbeddingService.insertDesc ⟨chunkA, 1⟩
      (EmbeddingService.insertDesc ⟨chunkB, 1⟩ (EmbeddingService.sortDesc [])) = _
    rw [show EmbeddingService.sortDesc ([] : List EmbeddingService.Scored) = [] from rfl]
    rw [show EmbeddingService.insertDesc ⟨chunkB, 1⟩ [] = [⟨chunkB, 1⟩] from rfl]
    unfold EmbeddingService.insertDesc
    rw [if_neg (lt_irrefl (1 : ℝ))]
  dsimp only
  rw [hsort]
  rfl

namespace RAGService

theorem query_single_noresults (env : QueryEnv) (cfg : RAGConfig) (s : RAGState)
    (question : JSString) (pdfIds : List JSString) (qe : List ℝ)
    (hsingle : (detectMultipleQuestions question).length ≤ 1)
    (hemb : env.embed question = .ok qe)
    (hempty : VectorStore.getChunksForPDFs s.vectorStore pdfIds = []) :
    query env cfg s question pdfIds = .ok
      { answer := noInfoAnswer pdfIds (s.vectorStore.pdfChunks.map Prod.fst)
          (mapSize s.vectorStore.embeddedChunks)
        sources := []
        chunksUsed := 0
        pdfsQueried := pdfIds } := by
  unfold query
  rw [if_neg (by omega)]
  rw [hemb]
  unfold VectorStore.search
  dsimp only
  rw [hempty]
  simp only [List.length_nil, if_pos]
  unfold VectorStore.getStats
  dsimp only
  congr 2
  simp [List.map_map]
  rfl

end RAGService

set_option maxRecDepth 10000 in
theorem query_compound_empty_eval :
    RAGService.query envOk cfg5 RAGState.initial (str "What is X? What is Y?") [str "d"] =
      .ok { answer := str "**Question 1:** What is X\n\n**Answer:** I couldn't find relevant information in the selected PDFs to answer this question.\n\n---\n\n**Question 2:** What is Y?\n\n**Answer:** I couldn't find relevant information in the selected PDFs to answer this question."
            sources := []
            chunksUsed := 0
            pdfsQueried := [str "d"] } := by
  rfl

namespace RAGService

theorem answerOneQuestion_label (env : QueryEnv) (s : RAGState) (pdfIds : List JSString)
    (topK : Nat) (q : JSString) (idx : Nat) :
    ∃ rest, (answerOneQuestion env s pdfIds topK q idx).1 =
      str "**Question " ++ natToJS idx ++ str ":** " ++ q ++ str "\n\n**Answer:** " ++ rest := by
  unfold answerOneQuestion
  rcases h : VectorStore.search (env.embed q) s.vectorStore pdfIds topK with e | rs
  · exact ⟨_, rfl⟩
  · dsimp only
    by_cases hlen : 0 < rs.length
    · rw [if_pos hlen]
      rcases hc : env.complete q rs with e | ans
      · exact ⟨_, rfl⟩
      · exact ⟨_, rfl⟩
    · rw [if_neg hlen]
      exact ⟨_, rfl⟩

theorem multiLoop_pair (env : QueryEnv) (s : RAGState) (pdfIds : List JSString)
    (topK : Nat) (q1 q2 : JSString) :
    multiLoop env s pdfIds topK 1 [q1, q2] =
      ([(answerOneQuestion env s pdfIds topK q1 1).1,
        (answerOneQuestion env s pdfIds topK q2 2).1],
       (answerOneQuestion env s pdfIds topK q1 1).2.1 ++
         (answerOneQuestion env s pdfIds topK q2 2).2.1,
       (answerOneQuestion env s pdfIds topK q1 1).2.2 +
         (answerOneQuestion env s pdfIds topK q2 2).2.2) := by
  simp [multiLoop]

end RAGService

namespace VectorStore

theorem search_ok_full (qe : List ℝ) (s : VectorStore) (pdfIds : List JSString) (topK : Nat)
    (hdim : ∀ c ∈ getChunksForPDFs s pdfIds, c.embedding.length = qe.length) :
    ∃ (res : List SearchResult) (sorted : List EmbeddingService.Scored),
      search (.ok qe) s pdfIds topK = .ok res ∧
      res = (sorted.take topK).map (fun r => ⟨r.chunk, r.similarity, r.similarity⟩) ∧
      res.length ≤ topK ∧
      (∀ r ∈ res, r.chunk ∈ getChunksForPDFs s pdfIds) ∧
      List.Pairwise (fun a b => b.similarity ≤ a.similarity) res ∧
      sorted.Perm ((getChunksForPDFs s pdfIds).map
        (fun c => ⟨c, EmbeddingService.cosineValue qe c.embedding⟩)) ∧
      List.Pairwise (fun (a b : EmbeddingService.Scored) => b.similarity ≤ a.similarity) sorted ∧
      (∀ v : ℝ, sorted.filter (fun a => decide (a.similarity = v)) =
        ((getChunksForPDFs s pdfIds).map
          (fun c => ⟨c, EmbeddingService.cosineValue qe c.embedding⟩)).filter
          (fun a => decide (a.similarity = v))) := by
  obtain ⟨sorted, hres, hperm, hsorted, hfilter⟩ := search_ok_spec qe s pdfIds topK hdim
  refine ⟨_, sorted, hres, rfl, ?_, ?_, ?_, hperm, hsorted, hfilter⟩
  · rw [List.length_map, List.length_take]
    exact min_le_left _ _
  · intro r hr
    rcases List.mem_map.mp hr with ⟨a, ha, rfl⟩
    have ha' : a ∈ sorted := List.mem_of_mem_take ha
    have ha'' := hperm.mem_iff.mp ha'
    rcases List.mem_map.mp ha'' with ⟨c, hc, rfl⟩
    exact hc
  · apply List.pairwise_map.mpr
    exact hsorted.take

end VectorStore

namespace TextChunker

theorem le_foldr_max {l : List Nat} {n : Nat} (h : n ∈ l) : n ≤ l.foldr max 0 := by
  induction l with
  | nil => simp at h
  | cons a l ih =>
    rcases List.mem_cons.mp h with rfl | h'
    · exact le_max_left _ _
    · exact le_trans (ih h') (le_max_right _ _)

theorem sentence_length_le (text : JSString) {s : JSString}
    (h : s ∈ splitIntoSentences text) : s.length ≤ maxSentenceLength text :=
  le_foldr_max (List.mem_map.mpr ⟨s, h, rfl⟩)

theorem chunkText_length_le (text : JSString) (pn : Nat) (pid pname : JSString) :
    ∀ c ∈ chunkText text pn pid pname,
      c.text.length ≤ max MAX_CHUNK_SIZE (OVERLAP_SIZE + 1 + maxSentenceLength text) := by
  intro c hc
  unfold chunkText at hc
  rcases List.mem_map.mp hc with ⟨p, hp, rfl⟩
  exact chunkTextAux_text_length_le pn pid pname (maxSentenceLength text) _ [] [] 0 0
    (fun s hs => sentence_length_le text hs) (by simp) p hp

theorem chunkText_min_size (text : JSString) (pn : Nat) (pid pname : JSString) :
    ∀ c ∈ (chunkText text pn pid pname).dropLast,
      MIN_CHUNK_SIZE < c.endChar - c.startChar := by
  intro c hc
  unfold chunkText at hc
  rw [← List.map_dropLast] at hc
  rcases List.mem_map.mp hc with ⟨p, hp, rfl⟩
  exact chunkTextAux_dropLast_min pn pid pname _ [] [] 0 0
    (fun s hs => splitIntoSentences_nonws text s hs) p hp

end TextChunker

namespace RAGService

theorem query_compound_general (env : QueryEnv) (cfg : RAGConfig) (s : RAGState)
    (pdfIds : List JSString) :
    ∃ rest1 rest2,
      query env cfg s (str "What is X? What is Y?") pdfIds = .ok
        { answer := (str "**Question 1:** What is X\n\n**Answer:** " ++ rest1) ++
            str "\n\n---\n\n" ++ (str "**Question 2:** What is Y?\n\n**Answer:** " ++ rest2)
          sources :=
            (answerOneQuestion env s pdfIds (jsCeilDiv cfg.maxChunks 2) (str "What is X") 1).2.1 ++
            (answerOneQuestion env s pdfIds (jsCeilDiv cfg.maxChunks 2) (str "What is Y?") 2).2.1
          chunksUsed :=
            (answerOneQuestion env s pdfIds (jsCeilDiv cfg.maxChunks 2) (str "What is X") 1).2.2 +
            (answerOneQuestion env s pdfIds (jsCeilDiv cfg.maxChunks 2) (str "What is Y?") 2).2.2
          pdfsQueried := pdfIds } := by
  obtain ⟨r1, hr1⟩ := answerOneQuestion_label env s pdfIds (jsCeilDiv cfg.maxChunks 2)
    (str "What is X") 1
  obtain ⟨r2, hr2⟩ := answerOneQuestion_label env s pdfIds (jsCeilDiv cfg.maxChunks 2)
    (str "What is Y?") 2
  rw [show str "**Question " ++ natToJS 1 ++ str ":** " ++ str "What is X" ++
      str "\n\n**Answer:** " = str "**Question 1:** What is X\n\n**Answer:** " from by decide] at hr1
  rw [show str "**Question " ++ natToJS 2 ++ str ":** " ++ str "What is Y?" ++
      str "\n\n**Answer:** " = str "**Question 2:** What is Y?\n\n**Answer:** " from by decide] at hr2
  refine ⟨r1, r2, ?_⟩
  unfold query
  rw [show detectMultipleQuestions (str "What is X? What is Y?") =
    [str "What is X", str "What is Y?"] from by decide]
  rw [if_pos (by norm_num)]
  unfold processMultipleQuestions
  dsimp only [List.length_cons, List.length_nil]
  rw [multiLoop_pair]
  dsimp only
  rw [intercalate_cons₂, intercalate_single]
  rw [hr1, hr2]

end RAGService

/-! ### The claims -/

set_option maxRecDepth 100000

/-- C1 (code bug): processPDF caches the extraction result in extractedPDFs
*before* chunking, embedding and indexing, so when the embedding remote call
fails the call rejects, yet the document is left marked processed
(isPDFProcessed = true) while the vector store holds none of its passages —
an observable partial state, and one that the cache-hit check then freezes: a
subsequent processPDF for the same document is a no-op, so the document can
never be repaired.  This theorem evaluates the code at the failing input
(extraction succeeds with one page of text, embedding fails). -/
theorem processPDF_embed_failure_partial_state :
    (RAGService.processPDF envEmbedFail RAGState.initial docA).2.1 =
      .error (str "Failed to process PDF: boom") ∧
    RAGService.isPDFProcessed (RAGService.processPDF envEmbedFail RAGState.initial docA).1
      (str "a") = true ∧
    VectorStore.getChunksForPDFs
      (RAGService.processPDF envEmbedFail RAGState.initial docA).1.vectorStore [str "a"] = [] ∧
    TextChunker.chunkPDF pdfHello ≠ [] ∧
    RAGService.processPDF envEmbedFail
      (RAGService.processPDF envEmbedFail RAGState.initial docA).1 docA =
      ((RAGService.processPDF envEmbedFail RAGState.initial docA).1, .ok (), []) :=
  ⟨rfl, rfl, rfl, by decide, rfl⟩

/-- C2 counterexample: the chunker's sentence splitter discards the terminal
punctuation and normalizes whitespace, so on the page "Hi. Bye." the single
passage (whose core is the whole passage, there being no overlap seed) reads
"Hi Bye": no concatenation of core texts can reproduce the original page
text — the periods are omitted. -/
theorem chunk_coverage_cex :
    (TextChunker.chunkText (str "Hi. Bye.") 1 (str "d") (str "n")).map
      TextChunker.TextChunk.text = [str "Hi Bye"] ∧
    TextChunker.chunkCores (str "Hi. Bye.") 1 (str "d") (str "n") = [str "Hi Bye"] ∧
    spJoin (TextChunker.chunkCores (str "Hi. Bye.") 1 (str "d") (str "n")) ≠ str "Hi. Bye." ∧
    (TextChunker.chunkCores (str "Hi. Bye.") 1 (str "d") (str "n")).flatten ≠ str "Hi. Bye." := by
  decide

/-- C2 (amended): concatenating the core (non-overlap) texts of a page's
passages, in order, with the single-space separators the chunker inserts,
reconstructs exactly the page's sentence sequence (its fragments between
terminal punctuation, trimmed, space-joined) — no sentence is ever omitted —
but not the original page text verbatim, whose terminal punctuation and
inter-sentence whitespace the sentence splitter discards. -/
theorem chunk_core_coverage (text : JSString) (pageNumber : Nat) (pdfId pdfName : JSString) :
    spJoin (TextChunker.chunkCores text pageNumber pdfId pdfName) =
      spJoin (TextChunker.splitIntoSentences text) :=
  TextChunker.chunkCores_join text pageNumber pdfId pdfName

/-- C3 counterexample: adding the same embedded passage twice overwrites the
chunk map in place but appends its id to the document's id list again, so
stats reports 2 passages for the document while only 1 is stored — the
duplicate call changes the per-document counts and stats is no longer
consistent with the stored passages. -/
theorem addChunks_idempotent_cex :
    (VectorStore.getStats (VectorStore.addChunks
      (VectorStore.addChunks VectorStore.empty [chunkA]) [chunkA])).chunksPerPDF =
        [(str "A", 2)] ∧
    (VectorStore.getStats (VectorStore.addChunks VectorStore.empty [chunkA])).chunksPerPDF =
        [(str "A", 1)] ∧
    VectorStore.getStats (VectorStore.addChunks
      (VectorStore.addChunks VectorStore.empty [chunkA]) [chunkA]) ≠
      VectorStore.getStats (VectorStore.addChunks VectorStore.empty [chunkA]) := by
  decide

/-- C3 (amended): re-adding the same embedded passages (distinct ids) leaves
the passage map unchanged — totalPassages and totalDocuments are unchanged —
but appends duplicate ids to each document's passage-id list, so the
per-document count reported by stats grows by the number of re-added passages
of that document; stats is then inconsistent with the stored passages. -/
theorem addChunks_reinsert (s : VectorStore) (cs : List EmbeddedChunk)
    (hids : (cs.map (fun c => c.id)).Nodup) :
    (VectorStore.addChunks (VectorStore.addChunks s cs) cs).embeddedChunks =
      (VectorStore.addChunks s cs).embeddedChunks ∧
    (VectorStore.getStats (VectorStore.addChunks (VectorStore.addChunks s cs) cs)).totalChunks =
      (VectorStore.getStats (VectorStore.addChunks s cs)).totalChunks ∧
    (VectorStore.getStats (VectorStore.addChunks (VectorStore.addChunks s cs) cs)).totalPDFs =
      (VectorStore.getStats (VectorStore.addChunks s cs)).totalPDFs ∧
    ∀ p, mapGet (VectorStore.getStats
        (VectorStore.addChunks (VectorStore.addChunks s cs) cs)).chunksPerPDF p =
      (mapGet (VectorStore.getStats (VectorStore.addChunks s cs)).chunksPerPDF p).map
        (fun n => n + (VectorStore.idsFor p cs).length) :=
  VectorStore.addChunks_twice s cs hids

/-- Witness for C3 at a concrete store and chunk list. -/
theorem addChunks_reinsert_witness :
    (VectorStore.getStats (VectorStore.addChunks
      (VectorStore.addChunks VectorStore.empty [chunkA]) [chunkA])).totalChunks =
      (VectorStore.getStats (VectorStore.addChunks VectorStore.empty [chunkA])).totalChunks ∧
    mapGet (VectorStore.getStats (VectorStore.addChunks
      (VectorStore.addChunks VectorStore.empty [chunkA]) [chunkA])).chunksPerPDF (str "A") =
      (mapGet (VectorStore.getStats
        (VectorStore.addChunks VectorStore.empty [chunkA])).chunksPerPDF (str "A")).map
        (fun n => n + (VectorStore.idsFor (str "A") [chunkA]).length) := by
  have h := addChunks_reinsert VectorStore.empty [chunkA] (by decide)
  exact ⟨h.2.1, h.2.2.2 (str "A")⟩

/-- C4 counterexample: with sentences "a", then a 1200-character sentence,
then "c", the chunker lets the buffer grow to 1202 characters (the 1200-char
sentence is appended because the buffer was still below the minimum size);
the seal is then triggered by the one-character sentence "c", and the sealed
passage's length 1202 exceeds max size + length of the triggering
sentence (1000 + 1). -/
theorem chunk_size_bound_cex :
    (TextChunker.splitIntoSentences (str "a. " ++ List.replicate 1200 'b' ++ str ". c.")).map
      List.length = [1, 1200, 1] ∧
    (TextChunker.chunkText (str "a. " ++ List.replicate 1200 'b' ++ str ". c.") 1 (str "d")
      (str "n")).map (fun c => c.text.length) = [1202, 202] ∧
    ¬ (1202 ≤ TextChunker.MAX_CHUNK_SIZE + (str "c").length) := by
  decide

/-- C4 (amended): every passage's length is bounded by
max(max size, overlap size + 1 + length of the page's longest sentence) — the
excess over max size is driven by the longest sentence (plus the overlap seed
and a joining space), not by the sentence that triggered the seal; and every
non-final passage of a page was sealed only when its untrimmed buffer
exceeded the minimum size (its endChar - startChar span, the buffer length,
is > 100; the stored text is that buffer trimmed, so whitespace at the seed
boundary can bring the stored text itself below the minimum). -/
theorem chunk_size_bounds (text : JSString) (pn : Nat) (pid pname : JSString) :
    (∀ c ∈ TextChunker.chunkText text pn pid pname,
      c.text.length ≤ max TextChunker.MAX_CHUNK_SIZE
        (TextChunker.OVERLAP_SIZE + 1 + TextChunker.maxSentenceLength text)) ∧
    (∀ c ∈ (TextChunker.chunkText text pn pid pname).dropLast,
      TextChunker.MIN_CHUNK_SIZE < c.endChar - c.startChar) :=
  ⟨TextChunker.chunkText_length_le text pn pid pname,
   TextChunker.chunkText_min_size text pn pid pname⟩


set_option maxRecDepth 100000

/-- Witness for C4 at a concrete page: the single passage of "Hi. Bye." meets
the size bound (the satisfiability of the non-final-passage hypothesis of the
minimum-size part is exhibited by the two-passage page of the C4
counterexample). -/
theorem chunk_size_bounds_witness :
    ((TextChunker.chunkText (str "Hi. Bye.") 1 (str "d") (str "n")).headD default).text.length ≤
      max TextChunker.MAX_CHUNK_SIZE (TextChunker.OVERLAP_SIZE + 1 +
        TextChunker.maxSentenceLength (str "Hi. Bye.")) :=
  (chunk_size_bounds (str "Hi. Bye.") 1 (str "d") (str "n")).1 _ (by decide)

/-- C5: ingestion is idempotent via the cache-hit check.  After any
processPDF call for a document that resolves successfully, the document is in
the extractedPDFs cache, so a second processPDF for it (under any remote
environment) returns immediately: same state, success, and an empty effect
trace — no extraction call, no embedding call, no index mutation, hence
index size and all per-document state unchanged. -/
theorem processPDF_idempotent (env env' : RAGService.IngestEnv) (s s' : RAGState)
    (doc : PDFDocument) (eff : List RAGService.IngestEffect)
    (h : RAGService.processPDF env s doc = (s', .ok (), eff)) :
    RAGService.processPDF env' s' doc = (s', .ok (), []) :=
  RAGService.processPDF_second_noop env env' s doc s' eff h

/-- Witness for C5: a successful first ingestion of docA from the initial
state, then the no-op second call. -/
theorem processPDF_idempotent_witness :
    RAGService.processPDF envIngestOk
      { extractedPDFs := [(str "a", pdfHello)], vectorStore := VectorStore.empty } docA =
      ({ extractedPDFs := [(str "a", pdfHello)], vectorStore := VectorStore.empty },
        .ok (), []) :=
  processPDF_idempotent envIngestOk envIngestOk RAGState.initial _ docA
    [.extractionCall, .embeddingCall, .indexAdd] rfl

/-- C6: calculateSimilarity computes cosine similarity dot(a,b)/(‖a‖·‖b‖)
whenever the dimensions agree (in the real-valued model division by a zero
magnitude is 0, agreeing with the code's explicit zero-magnitude guard), is
symmetric, returns ok 0 (without raising) when either vector has zero
magnitude, and errors exactly when the dimensions differ. -/
theorem calculateSimilarity_props (a b : List ℝ) :
    (a.length = b.length →
      EmbeddingService.calculateSimilarity a b = .ok (EmbeddingService.dotProduct a b /
        (Real.sqrt (EmbeddingService.sumSq a) * Real.sqrt (EmbeddingService.sumSq b)))) ∧
    EmbeddingService.calculateSimilarity a b = EmbeddingService.calculateSimilarity b a ∧
    (a.length = b.length →
      (Real.sqrt (EmbeddingService.sumSq a) = 0 ∨ Real.sqrt (EmbeddingService.sumSq b) = 0) →
      EmbeddingService.calculateSimilarity a b = .ok 0) ∧
    ((∃ e, EmbeddingService.calculateSimilarity a b = .error e) ↔ a.length ≠ b.length) :=
  ⟨fun h => EmbeddingService.calculateSimilarity_of_eq_length a b h,
   EmbeddingService.calculateSimilarity_comm a b,
   fun h hz => EmbeddingService.calculateSimilarity_zero a b h hz,
   EmbeddingService.calculateSimilarity_error_iff a b⟩

/-- Witness for C6: the zero-magnitude case at concrete vectors. -/
theorem calculateSimilarity_props_witness :
    EmbeddingService.calculateSimilarity [(1 : ℝ)] [(0 : ℝ)] = .ok 0 :=
  (calculateSimilarity_props [(1 : ℝ)] [(0 : ℝ)]).2.2.1 rfl
    (Or.inr (by norm_num [EmbeddingService.sumSq, EmbeddingService.dotProduct]))

set_option maxRecDepth 10000 in
/-- C7 counterexample: on a compound question ("What is X? What is Y?") over
a selection with no indexed passages, query takes the multi-question path and
returns per-sub-question "couldn't find relevant information" sections
without the diagnostic counts (requested/processed/total), so the promised
deterministic diagnostic Answer is not what every such query returns — the
claim fails for compound questions (sources and chunksUsed are still empty
and zero, and no exception is thrown). -/
theorem query_noresults_compound_cex :
    RAGService.query envOk cfg5 RAGState.initial (str "What is X? What is Y?") [str "d"] =
      .ok { answer := str "**Question 1:** What is X\n\n**Answer:** I couldn't find relevant information in the selected PDFs to answer this question.\n\n---\n\n**Question 2:** What is Y?\n\n**Answer:** I couldn't find relevant information in the selected PDFs to answer this question."
            sources := []
            chunksUsed := 0
            pdfsQueried := [str "d"] } ∧
    str "**Question 1:** What is X\n\n**Answer:** I couldn't find relevant information in the selected PDFs to answer this question.\n\n---\n\n**Question 2:** What is Y?\n\n**Answer:** I couldn't find relevant information in the selected PDFs to answer this question." ≠
      RAGService.noInfoAnswer [str "d"] [] 0 :=
  ⟨query_compound_empty_eval, by decide⟩

/-- C7 (amended): for a question the splitter does not detect as compound,
over document ids none of which have passages in the index, and with the
question embedding succeeding, query returns the deterministic
no-relevant-information Answer carrying the diagnostic counts (requested pdf
ids, processed pdf ids, total indexed passage count), an empty source list
and chunksUsed = 0, without throwing. -/
theorem query_unprocessed_selection (env : RAGService.QueryEnv) (cfg : RAGConfig)
    (s : RAGState) (question : JSString) (pdfIds : List JSString) (qe : List ℝ)
    (hsingle : (RAGService.detectMultipleQuestions question).length ≤ 1)
    (hemb : env.embed question = .ok qe)
    (hempty : VectorStore.getChunksForPDFs s.vectorStore pdfIds = []) :
    RAGService.query env cfg s question pdfIds = .ok
      { answer := RAGService.noInfoAnswer pdfIds (s.vectorStore.pdfChunks.map Prod.fst)
          (mapSize s.vectorStore.embeddedChunks)
        sources := []
        chunksUsed := 0
        pdfsQueried := pdfIds } :=
  RAGService.query_single_noresults env cfg s question pdfIds qe hsingle hemb hempty

/-- Witness for C7 at a concrete single question over an empty index. -/
theorem query_unprocessed_selection_witness :
    RAGService.query envOk cfg5 RAGState.initial (str "What is love?") [str "d"] =
      .ok { answer := RAGService.noInfoAnswer [str "d"] [] 0
            sources := []
            chunksUsed := 0
            pdfsQueried := [str "d"] } :=
  query_unprocessed_selection envOk cfg5 RAGState.initial (str "What is love?") [str "d"]
    [(1 : ℝ)] (by decide) rfl rfl

/-- C8: the input "What is X? What is Y?" is detected as exactly two
sub-questions ("What is X" loses its question mark to the consumed separator,
"What is Y?" keeps its own), and query then — for every environment,
configuration, state and document selection — processes each independently at
topK = ceil(maxChunks / 2), producing one answer made of two labeled
sections joined by the visible separator, with the two sub-questions' source
lists concatenated and their chunk counts summed. -/
theorem query_compound_two_sections :
    RAGService.detectMultipleQuestions (str "What is X? What is Y?") =
      [str "What is X", str "What is Y?"] ∧
    ∀ (env : RAGService.QueryEnv) (cfg : RAGConfig) (s : RAGState) (pdfIds : List JSString),
      ∃ rest1 rest2,
        RAGService.query env cfg s (str "What is X? What is Y?") pdfIds = .ok
          { answer := (str "**Question 1:** What is X\n\n**Answer:** " ++ rest1) ++
              str "\n\n---\n\n" ++ (str "**Question 2:** What is Y?\n\n**Answer:** " ++ rest2)
            sources :=
              (RAGService.answerOneQuestion env s pdfIds (RAGService.jsCeilDiv cfg.maxChunks 2)
                (str "What is X") 1).2.1 ++
              (RAGService.answerOneQuestion env s pdfIds (RAGService.jsCeilDiv cfg.maxChunks 2)
                (str "What is Y?") 2).2.1
            chunksUsed :=
              (RAGService.answerOneQuestion env s pdfIds (RAGService.jsCeilDiv cfg.maxChunks 2)
                (str "What is X") 1).2.2 +
              (RAGService.answerOneQuestion env s pdfIds (RAGService.jsCeilDiv cfg.maxChunks 2)
                (str "What is Y?") 2).2.2
            pdfsQueried := pdfIds } :=
  ⟨by decide, fun env cfg s pdfIds => RAGService.query_compound_general env cfg s pdfIds⟩

/-- C9 counterexample: two documents hold chunks with identical embeddings
(an exact similarity tie); chunkB was inserted into the index first, chunkA
second, but a search requesting documents A and B returns the A-chunk before
the B-chunk — ties are broken by the requested-document gathering order, not
by original insertion order into the index. -/
theorem search_insertion_order_cex :
    VectorStore.search (.ok [(1 : ℝ)]) storeBA [str "A", str "B"] 2 =
      .ok [⟨chunkA, 1, 1⟩, ⟨chunkB, 1, 1⟩] ∧
    (VectorStore.addChunks VectorStore.empty [chunkB]).embeddedChunks.map Prod.fst =
      [str "b1"] ∧
    storeBA.embeddedChunks.map Prod.fst = [str "b1", str "a1"] ∧
    chunkA.id = str "a1" ∧ chunkB.id = str "b1" ∧
    chunkA.pdfId = str "A" ∧ chunkB.pdfId = str "B" :=
  ⟨searchBA, rfl, rfl, rfl, rfl, rfl, rfl⟩

/-- C9 (amended): for every index state, query vector, document-id set and
topK, search over an empty document set returns an empty result (not an
error); the TS default for topK is 5; and — when every candidate chunk's
embedding has the query's dimension (otherwise the similarity computation
throws a dimension-mismatch error) — search returns the topK-prefix of the
stable descending reordering of the candidates: at most topK results, drawn
only from the requested documents' chunks, sorted by descending cosine
similarity, with equal-similarity ties kept in the gathered candidate order
(requested-document order, then per-document insertion order) — not global
insertion order. -/
theorem search_ranking_spec (qe : List ℝ) (s : VectorStore) (pdfIds : List JSString)
    (topK : Nat) :
    VectorStore.search (.ok qe) s [] topK = .ok [] ∧
    VectorStore.searchDefault (.ok qe) s pdfIds = VectorStore.search (.ok qe) s pdfIds 5 ∧
    ((∀ c ∈ VectorStore.getChunksForPDFs s pdfIds, c.embedding.length = qe.length) →
      SearchRankedSpec qe s pdfIds topK) :=
  ⟨rfl, rfl, fun hdim => VectorStore.search_ok_full qe s pdfIds topK hdim⟩

/-- Witness for C9 at the concrete two-document store. -/
theorem search_ranking_spec_witness :
    VectorStore.search (.ok [(1 : ℝ)]) storeBA [] 2 = .ok [] ∧
    SearchRankedSpec [(1 : ℝ)] storeBA [str "A", str "B"] 2 :=
  ⟨(search_ranking_spec [(1 : ℝ)] storeBA [] 2).1,
   (search_ranking_spec [(1 : ℝ)] storeBA [str "A", str "B"] 2).2.2 (by decide)⟩

/-- C10: VectorStore.search consumes the outcome of its single query-embedding
remote call before the candidate gathering and empty-selection check, so a
failed embedding call is propagated as an error for every document-id set —
the empty set included — and the empty-result outcome for an empty selection
is observed only when the embedding call succeeds. -/
theorem search_embeds_before_empty_check (e : JSString) (qe : List ℝ) (s : VectorStore)
    (pdfIds : List JSString) (topK : Nat) :
    VectorStore.search (.error e) s pdfIds topK = .error e ∧
    VectorStore.search (.error e) s [] topK = .error e ∧
    VectorStore.search (.ok qe) s [] topK = .ok [] :=
  ⟨rfl, rfl, rfl⟩
